import Mathlib

/-!
Shallow embedding of jjq (a local merge queue for the jj VCS) for checking
its specification claims.

Pure string processing (sequence-ID parsing/formatting, trailer extraction,
failure descriptions, workspace-name filtering) is translated directly from
`src/queue.rs` and `src/commands.rs`.  The effectful commands (`push`,
`run_one`, `run --all`, `check`, `next_id`) are embedded as functions from an
environment record — carrying the answers the `jj` subprocess and the lock
files would give — to a result together with a trace of the state-mutating
operations issued (bookmark create/delete/move, workspace add/forget,
describe, abandon, ...) plus the stdout announcements the claims reference.
Console output that mutates no state and is referenced by no claim is omitted
from the traces.
-/

namespace Jjq

/-- ASCII whitespace as it occurs in the strings jjq handles; models the
whitespace characters relevant to Rust `str::trim` / `split_whitespace`
for this codebase's ASCII data. -/
def isWS (c : Char) : Bool :=
  c = ' ' || c = '\t' || c = '\n' || c = '\r'

/-- Models Rust `char::is_ascii_digit`. -/
def isAsciiDigit (c : Char) : Bool :=
  48 ≤ c.toNat && c.toNat ≤ 57

/-- Numeric value of a decimal digit string (most significant first). -/
def dVal (l : List Char) : Nat :=
  l.foldl (fun a c => 10 * a + (c.toNat - 48)) 0

/-- The decimal digit character for `n < 10`. -/
def digitChar : Nat → Char
  | 0 => '0'
  | 1 => '1'
  | 2 => '2'
  | 3 => '3'
  | 4 => '4'
  | 5 => '5'
  | 6 => '6'
  | 7 => '7'
  | 8 => '8'
  | _ => '9'

/-- Decimal digits of `n`, most significant first, with explicit fuel so the
definition is structural (the fuel `n + 1` always suffices). Models the
decimal rendering of a Rust `u32` by `Display`. -/
def natDigitsF : Nat → Nat → List Char
  | 0, _ => []
  | fuel + 1, n =>
    if n < 10 then [digitChar n]
    else natDigitsF fuel (n / 10) ++ [digitChar (n % 10)]

/-- Decimal rendering of a natural number (models `format!("{}", n)`). -/
def natStr (n : Nat) : String :=
  ⟨natDigitsF (n + 1) n⟩

/-- Models Rust `str::trim` (ASCII whitespace, leading and trailing). -/
def trimChars (l : List Char) : List Char :=
  ((l.dropWhile isWS).reverse.dropWhile isWS).reverse

/-- Strip one trailing carriage return, as Rust `str::lines` does per line. -/
def stripCR (l : List Char) : List Char :=
  if l.getLast? = some '\r' then l.dropLast else l

/-- Core loop of `str::lines`: accumulate the current line (reversed) and
split at each newline; a final newline terminates the last line instead of
opening an empty one. -/
def rustLinesCore (cur : List Char) : List Char → List (List Char)
  | [] => [stripCR cur.reverse]
  | c :: rest =>
    if c = '\n' then
      stripCR cur.reverse :: (if rest.isEmpty then [] else rustLinesCore [] rest)
    else rustLinesCore (c :: cur) rest

/-- Models Rust `str::lines` (split-terminator semantics, `\r\n` tolerant). -/
def rustLines (s : List Char) : List (List Char) :=
  match s with
  | [] => []
  | _ :: _ => rustLinesCore [] s

/-- Join lines with a single newline between them (no trailing newline). -/
def joinNL : List (List Char) → List Char
  | [] => []
  | [l] => l
  | l :: rest => l ++ '\n' :: joinNL rest

/-- Models Rust `str::split_once(sep)` for a non-empty separator: split at
the first occurrence of `sep`. -/
def splitOnceCS (sep : List Char) : List Char → Option (List Char × List Char)
  | [] => none
  | c :: rest =>
    if sep.isPrefixOf (c :: rest) then some ([], (c :: rest).drop sep.length)
    else
      match splitOnceCS sep rest with
      | some (a, b) => some (c :: a, b)
      | none => none

/-- Models Rust `str::strip_prefix`: drop `pre` if it heads `l`. -/
def dropPre (pre l : List Char) : Option (List Char) :=
  if pre.isPrefixOf l then some (l.drop pre.length) else none

/-- Split a character list on a separator character (keeping empty parts),
as Rust `str::split(sep)` does. -/
def splitCharOn (sep : Char) : List Char → List (List Char)
  | [] => [[]]
  | c :: rest =>
    if c = sep then [] :: splitCharOn sep rest
    else
      match splitCharOn sep rest with
      | h :: t => (c :: h) :: t
      | [] => [[c]]

/-- First whitespace-separated token of a line, if any
(models `str::split_whitespace().next()`). -/
def firstToken (s : String) : Option String :=
  let l := s.data.dropWhile isWS
  if l.isEmpty then none else some ⟨l.takeWhile (fun c => !isWS c)⟩

/-- Models `str::trim_end_matches(':')`: remove every trailing colon. -/
def trimEndColons (s : String) : String :=
  ⟨(s.data.reverse.dropWhile (fun c => c = ':')).reverse⟩

/-! ## Exit codes (`src/exit_codes.rs`) -/

namespace exit_codes

def CONFLICT : Nat := 1
def CHECK_FAILED : Nat := 2
def LOCK_HELD : Nat := 3
def TRUNK_MOVED : Nat := 4
def USAGE : Nat := 10

/-- Modelled from the spec: the `PARTIAL` exit-code constant used by
`run_all` in `src/commands.rs` is absent from `src/exit_codes.rs` as
shipped; spec §7 fixes PartialFailure as exit code 2 ("`2` partial failure
from `run --all`"), matching the e2e test that asserts code 2. -/
def PARTIAL : Nat := 2

end exit_codes

/-- An error carrying a process exit code, or an untyped error (anyhow);
models `ExitError` plus the generic error path of `main`. -/
inductive JjqError where
  | exitError (code : Nat) (msg : String)
  | other (msg : String)
deriving DecidableEq, Repr

/-- Models `main` (src/main.rs lines 101-110): an `ExitError` exits with its
code; any other error exits with 1; success exits 0. -/
def main_exit_code : Except JjqError Unit → Nat
  | .ok _ => 0
  | .error (.exitError c _) => c
  | .error (.other _) => 1

/-- Merge strategy (`src/config.rs`). -/
inductive Strategy where
  | merge
  | rebase
deriving DecidableEq, Repr

def Strategy.asStr : Strategy → String
  | .merge => "merge"
  | .rebase => "rebase"

/-- Result of processing one queue item (`RunResult` in `src/commands.rs`). -/
inductive RunResult where
  | success
  | empty
  | skipped
  | failure (code : Nat) (msg : String)
deriving DecidableEq, Repr

/-- One state-mutating jj operation (or claim-relevant stdout announcement)
issued by a jjq command.  Traces of these model the order of effects. -/
inductive Event where
  | workspaceAdd (path name : String) (parents : List String)
  | workspaceForget (name : String)
  | bookmarkCreate (name rev : String)
  | bookmarkDelete (name : String)
  | bookmarkMove (name fromRev toRev : String)
  | bookmarkSet (name : String)
  | describe (rev msg : String)
  | abandon (rev : String)
  | edit (rev : String)
  | duplicateOnto (src dest : String)
  | rebaseBranchOnto (src dest : String)
  | newRev (parents : List String)
  | print (msg : String)
  | printErr (msg : String)
deriving DecidableEq, Repr

/-! ## Queue state (`src/queue.rs`) -/

/-- The jjq metadata bookmark name (`src/config.rs`). -/
def JJQ_BOOKMARK : String := "jjq/_/_"

/-- Models `parse_seq_id` (src/queue.rs lines 17-36): reject empty input,
reject any non-digit character, parse as `u32` (overflow is a parse error),
then require the value to lie in `1..=999999`.  The distinct error messages
of the source are collapsed into `none`. -/
def parse_seq_id (input : String) : Option Nat :=
  if input.data.isEmpty then none
  else if !input.data.all isAsciiDigit then none
  else
    let v := dVal input.data
    if 4294967296 ≤ v then none
    else if 1 ≤ v ∧ v ≤ 999999 then some v
    else none

/-- Models `format_seq_id` (src/queue.rs lines 39-41): `format!("{:06}", id)`
zero-pads the decimal rendering to at least six characters. -/
def format_seq_id (id : Nat) : String :=
  ⟨List.replicate (6 - (natDigitsF (id + 1) id).length) '0' ++ natDigitsF (id + 1) id⟩

/-- Models `queue_bookmark` (src/queue.rs). -/
def queue_bookmark (id : Nat) : String :=
  "jjq/queue/" ++ format_seq_id id

/-- Models `failed_bookmark` (src/queue.rs). -/
def failed_bookmark (id : Nat) : String :=
  "jjq/failed/" ++ format_seq_id id

/-- Models Rust `str::parse::<u32>` on an arbitrary string: optional leading
plus sign, then one or more ASCII digits, value below `2^32`. -/
def parse_u32 (l : List Char) : Option Nat :=
  let l' := match l with
    | '+' :: rest => rest
    | _ => l
  if l'.isEmpty then none
  else if !l'.all isAsciiDigit then none
  else if dVal l' < 4294967296 then some (dVal l')
  else none

/-- Models `extract_id_from_bookmark` (src/commands.rs lines 74-80):
take the segment after the last '/', parse it as `u32`, default 0. -/
def extract_id_from_bookmark (bookmark : String) : Nat :=
  (parse_u32 ((splitCharOn '/' bookmark.data).getLastD [])).getD 0

/-! ## Trailer extraction (`src/commands.rs` lines 84-94) -/

/-- Keyed overwrite into an association list; models `HashMap::insert`
(entry order is immaterial for a map, lookups go by key). -/
def insertKV : List (String × String) → String → String → List (String × String)
  | [], k, v => [(k, v)]
  | p :: rest, k, v =>
    if p.1 = k then (k, v) :: rest else p :: insertKV rest k v

/-- Lookup by key in the association-list model of the trailer map;
models `HashMap::get`. -/
def lookupKey (k : String) (m : List (String × String)) : Option String :=
  (m.find? (fun p => p.1 = k)).map (fun p => p.2)

/-- Parse one description line as a trailer: strip the literal prefix
`jjq-`, then split at the first `": "`; the value is trimmed.  This is the
body of the loop in `extract_trailers`. -/
def trailerOfLine (l : List Char) : Option (String × String) :=
  match dropPre "jjq-".data l with
  | some rest =>
    match splitOnceCS ": ".data rest with
    | some (k, v) => some (⟨k⟩, ⟨trimChars v⟩)
    | none => none
  | none => none

/-- Models `extract_trailers` (src/commands.rs lines 84-94): collect every
`jjq-key: value` line of the description into a map. -/
def extract_trailers (description : String) : List (String × String) :=
  (rustLines description.data).foldl
    (fun m l =>
      match trailerOfLine l with
      | some (k, v) => insertKV m k v
      | none => m)
    []

/-- Models `failure_description` (src/commands.rs lines 839-859). -/
def failure_description (id : Nat) (reason candidate_change_id candidate_commit_id
    trunk_commit_id workspace_path : String) (strategy : Strategy) : String :=
  "Failed: merge " ++ natStr id ++ " (" ++ reason ++ ")\n\njjq-candidate: "
    ++ candidate_change_id ++ "\njjq-candidate-commit: " ++ candidate_commit_id
    ++ "\njjq-trunk: " ++ trunk_commit_id ++ "\njjq-workspace: " ++ workspace_path
    ++ "\njjq-failure: " ++ reason ++ "\njjq-strategy: " ++ strategy.asStr

/-- The description of a failed merge, as its list of lines (most proofs go
through this form; `failure_description_data` relates the two). -/
def failure_lines (id : Nat) (reason candidate_change_id candidate_commit_id
    trunk_commit_id workspace_path : String) (strategy : Strategy) : List (List Char) :=
  [("Failed: merge " ++ natStr id ++ " (" ++ reason ++ ")").data,
   [],
   ("jjq-candidate: " ++ candidate_change_id).data,
   ("jjq-candidate-commit: " ++ candidate_commit_id).data,
   ("jjq-trunk: " ++ trunk_commit_id).data,
   ("jjq-workspace: " ++ workspace_path).data,
   ("jjq-failure: " ++ reason).data,
   ("jjq-strategy: " ++ strategy.asStr).data]

/-! ## Workspace-name filtering (`src/commands.rs` lines 44-49, 1341-1356,
1394-1437) -/

/-- Models Rust `str::starts_with` (for the ASCII strings jjq handles,
byte prefix and character prefix coincide). -/
def strStartsWith (s pre : String) : Bool :=
  pre.data.isPrefixOf s.data

/-- Models `is_jjq_workspace` (src/commands.rs lines 47-49).  Rust
`str::len` is the byte length, which equals the character count for the
ASCII workspace names jjq generates. -/
def is_jjq_workspace (name : String) : Bool :=
  strStartsWith name "jjq-" || (strStartsWith name "jjq" && name.data.length > 3)

/-- The workspace name `clean` extracts from one `jj workspace list` line:
first whitespace token (empty default), trailing colons removed. -/
def clean_line_name (line : String) : String :=
  trimEndColons ((firstToken line).getD "")

/-- The workspaces `clean` forgets (src/commands.rs lines 1400-1404):
every listed workspace whose extracted name satisfies `is_jjq_workspace`. -/
def clean_targets (lines : List String) : List String :=
  lines.filterMap (fun line =>
    let name := clean_line_name line
    if is_jjq_workspace name then some name else none)

/-- The count of orphaned workspaces `doctor` reports
(src/commands.rs lines 1343-1349). -/
def doctor_orphan_count (lines : List String) : Nat :=
  (lines.filterMap (fun line =>
    (firstToken line).bind (fun t =>
      if is_jjq_workspace (trimEndColons t) then some () else none))).length

/-! ## The run engine (`run_one`, src/commands.rs lines 534-837)

`run_one` is embedded as a function of an environment that records the
answers of every external query the source makes (next queue item, config
values, lock availability, conflict/tree predicates, check exit status,
trunk commit IDs before and after the check).  It returns the `RunResult`
(or a hard error) together with the ordered trace of mutating operations. -/

structure RunEnv where
  /-- Queue state: `queue::next_item()` (lowest queued sequence ID). -/
  nextItem : Option Nat
  /-- Whether jjq is initialized (checked by `run`, src/commands.rs 455). -/
  initialized : Bool
  /-- Whether `Lock::acquire_or_fail("config")` succeeds. -/
  configLockFree : Bool
  /-- `config::get_check_command()`. -/
  checkCommand : Option String
  /-- `config::get_strategy()`. -/
  strategy : Strategy
  /-- `config::get_trunk_bookmark()`. -/
  trunkBookmark : String
  /-- Whether `Lock::acquire("run")` succeeds. -/
  runLockFree : Bool
  /-- Trunk commit ID snapshotted at dequeue (line 579). -/
  trunkCommitAtSnapshot : String
  /-- Candidate change ID of the queue bookmark target (line 583). -/
  candidateChangeId : String
  /-- Candidate commit ID of the queue bookmark target (line 583). -/
  candidateCommitId : String
  /-- Candidate description captured before deletion (line 590). -/
  candidateDescription : String
  /-- Path of the fresh temp runner workspace. -/
  workspacePath : String
  /-- Path of the temp metadata workspace of `record_workspace_metadata`. -/
  metaPath : String
  /-- `std::process::id()`. -/
  pid : Nat
  /-- Change IDs returned by `duplicate_onto` (rebase strategy, line 613). -/
  rebaseDuplicateIds : List String
  /-- Resolution of `{run_name}@-` (rebase strategy, line 636). -/
  rebaseParentRev : String
  /-- `jj::has_conflicts` on the workspace head (line 642). -/
  hasConflictsWs : Bool
  /-- `jj::trees_match` between trunk and the workspace head (line 680). -/
  treesMatchTrunk : Bool
  /-- Whether the check command exited zero (line 710). -/
  checkExitSuccess : Bool
  /-- Trunk commit ID re-read after the check (line 752). -/
  trunkCommitAtRecheck : String
  /-- `jj::resolve_revset("@")` on the merge success path (line 781). -/
  landedChangeId : String

/-- Runner workspace name `jjq-run-NNNNNN` (src/commands.rs line 595). -/
def run_workspace_name (id : Nat) : String :=
  "jjq-run-" ++ format_seq_id id

/-- Models `record_workspace_metadata` (src/commands.rs lines 136-164):
its jj mutations, in order. -/
def record_workspace_metadata (env : RunEnv) (id : Nat) : List Event :=
  [Event.workspaceAdd env.metaPath ("jjq-meta-" ++ natStr env.pid) [JJQ_BOOKMARK],
   Event.describe "@"
     ("Sequence-Id: " ++ natStr id ++ "\nWorkspace: " ++ env.workspacePath),
   Event.bookmarkSet JJQ_BOOKMARK,
   Event.workspaceForget ("jjq-meta-" ++ natStr env.pid)]

/-- The duplicates tracked in `rebase_duplicate_ids`
(empty under the merge strategy, src/commands.rs line 598). -/
def rebase_dups (env : RunEnv) : List String :=
  match env.strategy with
  | .merge => []
  | .rebase => env.rebaseDuplicateIds

/-- Models `run_one` (src/commands.rs lines 534-837).  Hard errors (anyhow
`bail!`, e.g. the config lock) are `Except.error`; handled outcomes are
`Except.ok` carrying the `RunResult`. -/
def run_one (env : RunEnv) : Except JjqError RunResult × List Event :=
  match env.nextItem with
  | none => (.ok .empty, [])
  | some id =>
    if !env.configLockFree then
      (.error (.other "config lock unavailable"), [])
    else match env.checkCommand with
    | none =>
      (.ok (.failure exit_codes.CONFLICT "check_command not configured"), [])
    | some _ =>
      if !env.runLockFree then
        (.ok (.failure exit_codes.CONFLICT "run lock unavailable"), [])
      else
        let qb := queue_bookmark id
        let runName := run_workspace_name id
        let wsRev := runName ++ "@"
        let trunkRevset := "bookmarks(exact:" ++ env.trunkBookmark ++ ")"
        let setup : List Event :=
          (match env.strategy with
           | .merge =>
             [Event.workspaceAdd env.workspacePath runName
               [trunkRevset, "bookmarks(exact:" ++ qb ++ ")"]]
           | .rebase =>
             [Event.duplicateOnto ("bookmarks(exact:" ++ qb ++ ")") trunkRevset,
              Event.workspaceAdd env.workspacePath runName
                [env.rebaseDuplicateIds.getLastD ""]])
          ++ record_workspace_metadata env id
          ++ (match env.strategy with
              | .merge => []
              | .rebase => [Event.edit env.rebaseParentRev])
        if env.hasConflictsWs then
          -- Conflict path (lines 642-675): mark failed, keep the workspace.
          (.ok (.failure exit_codes.CONFLICT
              ("merge " ++ natStr id ++ " has conflicts")),
           setup ++
             [Event.bookmarkDelete qb,
              Event.bookmarkCreate (failed_bookmark id) wsRev,
              Event.describe wsRev
                (failure_description id "conflicts" env.candidateChangeId
                  env.candidateCommitId env.trunkCommitAtSnapshot
                  env.workspacePath env.strategy)])
        else if env.treesMatchTrunk then
          -- Empty path (lines 680-703): delete queue entry and skip.
          (.ok .skipped,
           setup ++
             [Event.bookmarkDelete qb]
             ++ (rebase_dups env).map Event.abandon
             ++ [Event.workspaceForget runName])
        else
          let setup2 := setup ++
            [Event.describe wsRev ("WIP: attempting merge " ++ natStr id)]
          if !env.checkExitSuccess then
            -- Check failure path (lines 710-749): mark failed, keep workspace.
            (.ok (.failure exit_codes.CONFLICT
                ("merge " ++ natStr id ++ " check failed")),
             setup2 ++
               [Event.bookmarkDelete qb,
                Event.bookmarkCreate (failed_bookmark id) wsRev,
                Event.describe wsRev
                  (failure_description id "check" env.candidateChangeId
                    env.candidateCommitId env.trunkCommitAtSnapshot
                    env.workspacePath env.strategy)])
          else if env.trunkCommitAtRecheck ≠ env.trunkCommitAtSnapshot then
            -- Trunk moved (lines 751-770): abandon duplicates, forget workspace,
            -- leave the queue entry in place.
            (.ok (.failure exit_codes.CONFLICT "trunk moved during run"),
             setup2
               ++ (rebase_dups env).map Event.abandon
               ++ [Event.printErr
                     "trunk bookmark moved during run; queue item left in place, re-run to retry",
                   Event.workspaceForget runName])
          else
            match env.strategy with
            | .merge =>
              -- Merge success path (lines 780-794): CAS trunk, then delete the
              -- queue bookmark, then describe.
              (.ok .success,
               setup2 ++
                 [Event.bookmarkMove env.trunkBookmark env.trunkCommitAtSnapshot "@",
                  Event.bookmarkDelete qb,
                  Event.describe "@" ("Success: merge " ++ natStr id),
                  Event.workspaceForget runName])
            | .rebase =>
              -- Rebase success path (lines 795-833).
              (.ok .success,
               setup2 ++
                 [Event.rebaseBranchOnto env.candidateChangeId trunkRevset,
                  Event.bookmarkMove env.trunkBookmark env.trunkCommitAtSnapshot
                    env.candidateChangeId,
                  Event.bookmarkDelete qb,
                  Event.describe env.candidateChangeId
                    (⟨trimChars env.candidateDescription.data⟩ ++
                      "\n\njjq-sequence: " ++ natStr id ++ "\njjq-strategy: rebase")]
                 ++ env.rebaseDuplicateIds.map Event.abandon
                 ++ [Event.workspaceForget runName])

/-- Models `run` for a single item (src/commands.rs lines 454-467):
`require_initialized`, then translate a `Failure` into an `ExitError`. -/
def run_single (env : RunEnv) : Except JjqError Unit × List Event :=
  if !env.initialized then
    (.error (.exitError exit_codes.USAGE "jjq is not initialized"), [])
  else
    match run_one env with
    | (.ok .success, t) => (.ok (), t)
    | (.ok .empty, t) => (.ok (), t)
    | (.ok .skipped, t) => (.ok (), t)
    | (.ok (.failure c m), t) => (.error (.exitError c m), t)
    | (.error e, t) => (.error e, t)

/-! ## `run --all` (src/commands.rs lines 476-532)

The loop is embedded over the list of successive `run_one` outcomes; it
stops at the first `Empty`.  `none` means the given outcome list ran out
before the queue did (the execution did not complete). -/

instance {ε α : Type} [DecidableEq ε] [DecidableEq α] : DecidableEq (Except ε α) :=
  fun a b =>
    match a, b with
    | .ok x, .ok y =>
      if h : x = y then isTrue (by rw [h]) else isFalse (by intro he; cases he; exact h rfl)
    | .error e, .error f =>
      if h : e = f then isTrue (by rw [h]) else isFalse (by intro he; cases he; exact h rfl)
    | .ok _, .error _ => isFalse (by intro he; cases he)
    | .error _, .ok _ => isFalse (by intro he; cases he)

structure RunAllOutcome where
  merged : Nat
  failed : Nat
  skipped : Nat
  prints : List String
  result : Except JjqError Unit
deriving DecidableEq, Repr

/-- The summary step after the loop breaks (src/commands.rs lines 507-531). -/
def run_all_finish (merged failed skipped : Nat) : RunAllOutcome :=
  if merged > 0 ∨ failed > 0 ∨ skipped > 0 then
    if failed > 0 then
      { merged, failed, skipped,
        prints := ["processed " ++ natStr merged ++ " item(s), "
                     ++ natStr failed ++ " failed"],
        result := .error (.exitError exit_codes.PARTIAL
          ("processed " ++ natStr merged ++ " item(s), "
             ++ natStr failed ++ " failed")) }
    else if skipped > 0 then
      { merged, failed, skipped,
        prints := ["processed " ++ natStr merged ++ " item(s), "
                     ++ natStr skipped ++ " skipped (empty)"],
        result := .ok () }
    else
      { merged, failed, skipped,
        prints := ["processed " ++ natStr merged ++ " item(s)"],
        result := .ok () }
  else
    { merged, failed, skipped, prints := [], result := .ok () }

/-- The loop of `run_all` (src/commands.rs lines 481-505). -/
def run_all_loop (stopOnFailure : Bool) (merged failed skipped : Nat) :
    List RunResult → Option RunAllOutcome
  | [] => none
  | r :: rest =>
    match r with
    | .success => run_all_loop stopOnFailure (merged + 1) failed skipped rest
    | .empty => some (run_all_finish merged failed skipped)
    | .skipped => run_all_loop stopOnFailure merged failed (skipped + 1) rest
    | .failure _ msg =>
      if stopOnFailure then
        some { merged, failed, skipped,
               prints := if merged > 0 then
                   ["processed " ++ natStr merged ++ " item(s) before failure"]
                 else [],
               result := .error (.exitError exit_codes.CONFLICT msg) }
      else run_all_loop stopOnFailure merged (failed + 1) skipped rest

/-- Models `run_all` (src/commands.rs lines 476-532), given the stream of
`run_one` outcomes. -/
def run_all (stopOnFailure : Bool) (results : List RunResult) :
    Option RunAllOutcome :=
  run_all_loop stopOnFailure 0 0 0 results

/-! ## `push` (src/commands.rs lines 358-451) and `next_id`
(src/queue.rs lines 44-88) -/

/-- A queue bookmark as `push` observes it: bookmark name plus the change
and commit IDs its target resolves to (src/commands.rs lines 378-381). -/
structure QEntry where
  name : String
  changeId : String
  commitId : String
deriving DecidableEq, Repr

/-- A failed bookmark as `push` observes it: bookmark name plus the full
description of its target (src/commands.rs lines 395-397). -/
structure FEntry where
  name : String
  desc : String
deriving DecidableEq, Repr

structure PushEnv where
  /-- The user-supplied revset argument. -/
  revset : String
  /-- `jj::resolve_revset_full(revset)`: `(change_id, commit_id)`,
  `none` when resolution fails (empty or multiple matches). -/
  resolveResult : Option (String × String)
  /-- `config::get_trunk_bookmark()`. -/
  trunkBookmark : String
  /-- Whether the trunk bookmark exists. -/
  trunkExists : Bool
  /-- The queue bookmarks listed by `bookmark_list_glob`, resolved. -/
  queueEntries : List QEntry
  /-- The failed bookmarks listed by `bookmark_list_glob`, with descriptions. -/
  failedEntries : List FEntry
  /-- Change ID of the ephemeral merge commit created by `new_rev`. -/
  conflictCheckId : String
  /-- `jj::has_conflicts` on the ephemeral merge commit (`.error` when the
  conflict query itself fails). -/
  hasConflictsRes : Except Unit Bool
  /-- Whether jjq is initialized. -/
  initialized : Bool
  /-- Whether `Lock::acquire("id")` succeeds in `next_id`. -/
  idLockFree : Bool
  /-- Contents of `last_id` on the metadata branch. -/
  lastId : Nat
  /-- Path of the temp workspace used by `next_id`. -/
  idWorkspacePath : String
  /-- `std::process::id()`. -/
  pid : Nat

/-- The queue-bookmark scan of `push` (src/commands.rs lines 378-392):
returns its events in order and whether the push was rejected with
"already queued".  On the reject the loop returns immediately; earlier
same-change entries have already been deleted. -/
def scan_queue (changeId commitId : String) : List QEntry → List Event × Bool
  | [] => ([], false)
  | e :: rest =>
    if e.commitId = commitId then
      ([Event.printErr ("revision already queued at "
          ++ natStr (extract_id_from_bookmark e.name))], true)
    else if e.changeId = changeId then
      let r := scan_queue changeId commitId rest
      (Event.bookmarkDelete e.name
         :: Event.print ("replacing queued entry "
              ++ natStr (extract_id_from_bookmark e.name))
         :: r.1,
       r.2)
    else scan_queue changeId commitId rest

/-- The failed-bookmark scan of `push` (src/commands.rs lines 395-406):
delete every failed entry whose `jjq-candidate` trailer equals the pushed
change ID. -/
def scan_failed (changeId : String) : List FEntry → List Event
  | [] => []
  | f :: rest =>
    match lookupKey "candidate" (extract_trailers f.desc) with
    | some c =>
      if c = changeId then
        Event.bookmarkDelete f.name
          :: Event.print ("clearing failed entry "
               ++ natStr (extract_id_from_bookmark f.name))
          :: scan_failed changeId rest
      else scan_failed changeId rest
    | none => scan_failed changeId rest

/-- Models `queue::next_id` (src/queue.rs lines 44-88): acquire the `id`
lock (LOCK_HELD error when unavailable), bump `last_id` on the metadata
branch inside a short-lived workspace, USAGE error when exhausted. -/
def next_id (env : PushEnv) : Except JjqError Nat × List Event :=
  if !env.idLockFree then
    (.error (.exitError exit_codes.LOCK_HELD
        "could not acquire sequence ID lock (another process may be pushing)"),
     [])
  else
    let wsName := "jjq" ++ natStr env.pid
    if env.lastId ≥ 999999 then
      (.error (.exitError exit_codes.USAGE "sequence ID exhausted (at 999999)"),
       [Event.workspaceAdd env.idWorkspacePath wsName [JJQ_BOOKMARK],
        Event.workspaceForget wsName])
    else
      (.ok (env.lastId + 1),
       [Event.workspaceAdd env.idWorkspacePath wsName [JJQ_BOOKMARK],
        Event.describe "@"
          (natStr env.lastId ++ " -> " ++ natStr (env.lastId + 1)
            ++ "\npid: " ++ natStr env.pid),
        Event.bookmarkSet JJQ_BOOKMARK,
        Event.workspaceForget wsName])

/-- Models `push` (src/commands.rs lines 358-451).  Console output without
state effect (guidance lines, the final "queued at" announcement) is
omitted from the trace. -/
def push (env : PushEnv) : Except JjqError Unit × List Event :=
  match env.resolveResult with
  | none => (.error (.exitError exit_codes.USAGE "revset resolution failed"), [])
  | some (changeId, commitId) =>
    if !env.trunkExists then
      (.error (.exitError exit_codes.USAGE
          ("trunk bookmark " ++ env.trunkBookmark ++ " not found")), [])
    else
      let sq := scan_queue changeId commitId env.queueEntries
      if sq.2 then
        (.error (.exitError exit_codes.USAGE "revision already queued"), sq.1)
      else
        let evs := sq.1 ++ scan_failed changeId env.failedEntries
          ++ [Event.newRev [env.trunkBookmark, env.revset]]
        match env.hasConflictsRes with
        | .error _ =>
          -- The conflict query failed: abandon the ephemeral commit anyway
          -- and propagate the error (src/commands.rs lines 416-419).
          (.error (.other "conflict query failed"),
           evs ++ [Event.abandon env.conflictCheckId])
        | .ok hasConflicts =>
          let evs := evs ++ [Event.abandon env.conflictCheckId]
          if hasConflicts then
            (.error (.exitError exit_codes.CONFLICT "revision conflicts with trunk"),
             evs)
          else if !env.initialized then
            (.error (.exitError exit_codes.USAGE "jjq is not initialized"), evs)
          else
            match next_id env with
            | (.error e, nevs) => (.error e, evs ++ nevs)
            | (.ok id, nevs) =>
              (.ok (),
               evs ++ nevs ++ [Event.bookmarkCreate (queue_bookmark id) env.revset])

/-! ## `check` (src/commands.rs lines 862-935) -/

structure CheckEnv where
  /-- The revset argument. -/
  revset : String
  /-- `jj::resolve_revset(revset)`. -/
  resolveChange : Option String
  /-- `config::get_check_command()`. -/
  checkCommand : Option String
  /-- Whether the check command exited zero. -/
  checkExitSuccess : Bool
  /-- Path of the temp workspace. -/
  workspacePath : String
  /-- `std::process::id()`. -/
  pid : Nat

/-- Models `check` (src/commands.rs lines 862-935).  The parenthesized
configuration hint of the source error message is elided. -/
def check (env : CheckEnv) : Except JjqError Unit × List Event :=
  match env.resolveChange with
  | none => (.error (.exitError exit_codes.USAGE "revset resolution failed"), [])
  | some _ =>
    match env.checkCommand with
    | none =>
      (.error (.exitError exit_codes.USAGE "check_command not configured"), [])
    | some _ =>
      let wsName := "jjq-check-" ++ natStr env.pid
      let evs := [Event.workspaceAdd env.workspacePath wsName [env.revset],
                  Event.workspaceForget wsName]
      if env.checkExitSuccess then (.ok (), evs)
      else (.error (.exitError exit_codes.CONFLICT "check failed"), evs)

/-! # Lemmas and claim theorems -/

/-! ## C10: which workspaces `clean` and `doctor` treat as jjq-owned -/

theorem doctor_count_eq_clean_length (lines : List String) :
    doctor_orphan_count lines = (clean_targets lines).length := by
  induction lines with
  | nil => rfl
  | cons line rest ih =>
    unfold doctor_orphan_count clean_targets at ih ⊢
    simp only [List.filterMap_cons]
    cases h : firstToken line with
    | none =>
      have hname : clean_line_name line = "" := by
        simp [clean_line_name, h, trimEndColons]
      have hjf : is_jjq_workspace "" = false := by decide
      rw [hname]
      simp [hjf, ih]
    | some t =>
      have hname : clean_line_name line = trimEndColons t := by
        simp [clean_line_name, h]
      rw [hname]
      by_cases hj : is_jjq_workspace (trimEndColons t) = true
      · simp [hj, ih]
      · simp [hj, ih]

/-- C10: `clean` forgets, and `doctor` counts as orphaned, exactly the listed
workspaces whose extracted name starts with "jjq-" or starts with "jjq"
followed by at least one further character; in particular "jjq2" and
"jjqfoo" are treated as jjq-owned while the bare name "jjq" is not. -/
theorem C10_jjq_workspace_ownership :
    (∀ (lines : List String) (name : String),
       name ∈ clean_targets lines ↔
         ∃ line ∈ lines, clean_line_name line = name ∧
           (strStartsWith name "jjq-" = true ∨
             (strStartsWith name "jjq" = true ∧ 3 < name.data.length))) ∧
    (∀ lines : List String,
       doctor_orphan_count lines = (clean_targets lines).length) ∧
    is_jjq_workspace "jjq2" = true ∧
    is_jjq_workspace "jjqfoo" = true ∧
    is_jjq_workspace "jjq" = false ∧
    is_jjq_workspace "jjq-run-000001" = true := by
  refine ⟨?_, doctor_count_eq_clean_length, by decide, by decide, by decide, by decide⟩
  intro lines name
  have hchar : ∀ s : String, is_jjq_workspace s = true ↔
      (strStartsWith s "jjq-" = true ∨
        (strStartsWith s "jjq" = true ∧ 3 < s.data.length)) := by
    intro s
    simp [is_jjq_workspace, Bool.or_eq_true, Bool.and_eq_true, decide_eq_true_eq,
      gt_iff_lt]
  constructor
  · intro hmem
    rcases List.mem_filterMap.mp hmem with ⟨line, hline, hf⟩
    by_cases hj : is_jjq_workspace (clean_line_name line) = true
    · simp only [hj, if_true] at hf
      cases hf
      exact ⟨line, hline, rfl, (hchar _).mp hj⟩
    · rw [if_neg] at hf
      · cases hf
      · simpa using hj
  · rintro ⟨line, hline, hname, hc⟩
    refine List.mem_filterMap.mpr ⟨line, hline, ?_⟩
    subst hname
    have hj : is_jjq_workspace (clean_line_name line) = true := (hchar _).mpr hc
    simp [hj]

/-! ## C8: sequence-ID parsing and formatting -/

theorem dVal_append_singleton (l : List Char) (c : Char) :
    dVal (l ++ [c]) = 10 * dVal l + (c.toNat - 48) := by
  unfold dVal
  rw [List.foldl_append]
  rfl

theorem digitChar_toNat (n : Nat) (h : n < 10) : (digitChar n).toNat = 48 + n := by
  interval_cases n <;> decide

theorem digitChar_isDigit (n : Nat) (h : n < 10) : isAsciiDigit (digitChar n) = true := by
  interval_cases n <;> decide

theorem natDigitsF_spec (fuel : Nat) : ∀ n : Nat, n < fuel →
    natDigitsF fuel n ≠ [] ∧
    (∀ c ∈ natDigitsF fuel n, isAsciiDigit c = true) ∧
    dVal (natDigitsF fuel n) = n := by
  induction fuel with
  | zero => intro n h; omega
  | succ fuel ih =>
    intro n h
    by_cases h10 : n < 10
    · refine ⟨by simp [natDigitsF, h10], ?_, ?_⟩
      · intro c hc
        simp [natDigitsF, h10] at hc
        subst hc
        exact digitChar_isDigit n h10
      · simp [natDigitsF, h10, dVal, List.foldl, digitChar_toNat n h10]
    · have hn0 : 0 < n := by omega
      have hdiv : n / 10 < fuel := by
        have : n / 10 < n := Nat.div_lt_self hn0 (by omega)
        omega
      obtain ⟨hne, hdig, hval⟩ := ih (n / 10) hdiv
      have hmod : n % 10 < 10 := Nat.mod_lt _ (by omega)
      refine ⟨by simp [natDigitsF, h10], ?_, ?_⟩
      · intro c hc
        simp only [natDigitsF, h10, if_false, List.mem_append, List.mem_singleton] at hc
        rcases hc with hc | hc
        · exact hdig c hc
        · subst hc; exact digitChar_isDigit _ hmod
      · simp only [natDigitsF, h10, if_false]
        rw [dVal_append_singleton, hval, digitChar_toNat _ hmod]
        omega

theorem dVal_replicate_zero (k : Nat) (l : List Char) :
    dVal (List.replicate k '0' ++ l) = dVal l := by
  induction k with
  | zero => simp
  | succ k ih =>
    rw [List.replicate_succ, List.cons_append]
    unfold dVal at ih ⊢
    simp only [List.foldl_cons]
    convert ih using 2

/-- C8: `parse_seq_id` accepts exactly the non-empty all-digit strings whose
numeric value lies in `[1, 999999]` (zero-padded forms included, so parsing
inverts `format_seq_id` on that range), and rejects the empty string, any
string with a non-digit character, zero and its padded forms, and values
above 999999 such as "1000000". -/
theorem C8_parse_seq_id_domain :
    (∀ (s : String) (n : Nat),
       parse_seq_id s = some n ↔
         (s.data ≠ [] ∧ (∀ c ∈ s.data, isAsciiDigit c = true) ∧
          n = dVal s.data ∧ 1 ≤ n ∧ n ≤ 999999)) ∧
    (∀ id : Nat, 1 ≤ id → id ≤ 999999 →
       parse_seq_id (format_seq_id id) = some id) ∧
    (∀ s : String, (∃ c ∈ s.data, isAsciiDigit c = false) → parse_seq_id s = none) ∧
    parse_seq_id "" = none ∧ parse_seq_id "0" = none ∧
    parse_seq_id "000000" = none ∧ parse_seq_id "1000000" = none := by
  have hiff : ∀ (s : String) (n : Nat),
      parse_seq_id s = some n ↔
        (s.data ≠ [] ∧ (∀ c ∈ s.data, isAsciiDigit c = true) ∧
         n = dVal s.data ∧ 1 ≤ n ∧ n ≤ 999999) := by
    intro s n
    simp only [parse_seq_id]
    by_cases hemp : s.data.isEmpty = true
    · have hd : s.data = [] := by
        cases hd : s.data with
        | nil => rfl
        | cons a l => rw [hd] at hemp; simp at hemp
      rw [if_pos hemp]
      simp [hd]
    · have hne : s.data ≠ [] := by
        intro h; apply hemp; rw [h]; rfl
      rw [if_neg hemp]
      by_cases hall : s.data.all isAsciiDigit = true
      · rw [if_neg (by rw [hall]; decide)]
        by_cases hov : 4294967296 ≤ dVal s.data
        · rw [if_pos hov]
          constructor
          · intro h; cases h
          · rintro ⟨_, _, hv, h1, h2⟩
            subst hv
            exact absurd hov (by omega)
        · rw [if_neg hov]
          by_cases hr : 1 ≤ dVal s.data ∧ dVal s.data ≤ 999999
          · rw [if_pos hr]
            constructor
            · intro h
              injection h with h
              subst h
              exact ⟨hne, List.all_eq_true.mp hall, rfl, hr.1, hr.2⟩
            · rintro ⟨_, _, hv, _, _⟩
              subst hv
              rfl
          · rw [if_neg hr]
            constructor
            · intro h; cases h
            · rintro ⟨_, _, hv, h1, h2⟩
              subst hv
              exact absurd ⟨h1, h2⟩ hr
      · have hallf : s.data.all isAsciiDigit = false := by
          cases hb : s.data.all isAsciiDigit with
          | false => rfl
          | true => exact absurd hb hall
        rw [if_pos (by rw [hallf]; decide)]
        constructor
        · intro h; cases h
        · rintro ⟨_, hdig, _⟩
          exact absurd (List.all_eq_true.mpr hdig) hall
  refine ⟨hiff, ?_, ?_, by decide, by decide, by decide, by decide⟩
  · intro id h1 h2
    obtain ⟨hne, hdig, hval⟩ := natDigitsF_spec (id + 1) id (Nat.lt_succ_self id)
    refine (hiff _ _).mpr ⟨?_, ?_, ?_, h1, h2⟩
    · show List.replicate _ '0' ++ natDigitsF (id + 1) id ≠ []
      simp [hne]
    · intro c hc
      rcases List.mem_append.mp hc with hc | hc
      · rw [List.eq_of_mem_replicate hc]; decide
      · exact hdig c hc
    · show id = dVal (List.replicate _ '0' ++ natDigitsF (id + 1) id)
      rw [dVal_replicate_zero, hval]
  · intro s ⟨c, hc, hcd⟩
    unfold parse_seq_id
    by_cases hemp : s.data.isEmpty
    · simp [hemp]
    · have hall : s.data.all isAsciiDigit = false := by
        rw [List.all_eq_false]
        exact ⟨c, hc, by simp [hcd]⟩
      simp [hemp, hall]

/-! ## C6: partial failure from `run --all` -/

theorem run_all_finish_fields (m f s : Nat) :
    (run_all_finish m f s).merged = m ∧ (run_all_finish m f s).failed = f ∧
    (run_all_finish m f s).skipped = s := by
  unfold run_all_finish
  split_ifs <;> exact ⟨rfl, rfl, rfl⟩

theorem run_all_loop_false_finish (results : List RunResult) :
    ∀ (m f s : Nat) (out : RunAllOutcome),
      run_all_loop false m f s results = some out →
      ∃ m' f' s', out = run_all_finish m' f' s' := by
  induction results with
  | nil => intro m f s out h; cases h
  | cons r rest ih =>
    intro m f s out h
    cases r with
    | success => exact ih _ _ _ _ h
    | empty =>
      simp only [run_all_loop, Option.some.injEq] at h
      exact ⟨m, f, s, h.symm⟩
    | skipped => exact ih _ _ _ _ h
    | failure c msg =>
      simp only [run_all_loop, Bool.false_eq_true, if_false] at h
      exact ih _ _ _ _ h

/-- C6: a `run --all` without `--stop-on-failure` that completes with at
least one merged and at least one failed item prints
"processed N item(s), M failed" (N merged, M failed) and exits with code 2
(the partial-failure code). -/
theorem C6_run_all_partial_failure (results : List RunResult) (out : RunAllOutcome)
    (hrun : run_all false results = some out)
    (hm : 1 ≤ out.merged) (hf : 1 ≤ out.failed) :
    out.prints = ["processed " ++ natStr out.merged ++ " item(s), "
                    ++ natStr out.failed ++ " failed"] ∧
    main_exit_code out.result = 2 := by
  obtain ⟨m', f', s', hout⟩ := run_all_loop_false_finish results 0 0 0 out hrun
  obtain ⟨hm', hf', _⟩ := run_all_finish_fields m' f' s'
  rw [hout, hm'] at hm
  rw [hout, hf'] at hf
  have hcond : m' > 0 ∨ f' > 0 ∨ s' > 0 := Or.inl hm
  have hval : run_all_finish m' f' s' =
      { merged := m', failed := f', skipped := s',
        prints := ["processed " ++ natStr m' ++ " item(s), "
                     ++ natStr f' ++ " failed"],
        result := .error (.exitError exit_codes.PARTIAL
          ("processed " ++ natStr m' ++ " item(s), "
             ++ natStr f' ++ " failed")) } := by
    unfold run_all_finish
    rw [if_pos hcond, if_pos (show f' > 0 from hf)]
  rw [hout, hval]
  exact ⟨rfl, rfl⟩

theorem C6_run_all_partial_failure_witness :
    (run_all_finish 1 1 0).prints =
      ["processed " ++ natStr (run_all_finish 1 1 0).merged ++ " item(s), "
         ++ natStr (run_all_finish 1 1 0).failed ++ " failed"] ∧
    main_exit_code (run_all_finish 1 1 0).result = 2 :=
  C6_run_all_partial_failure
    [RunResult.success, RunResult.failure 1 "boom", RunResult.empty]
    (run_all_finish 1 1 0) (by decide) (by decide) (by decide)

/-! ## C7: unset check command in `run` versus `check` -/

/-- C7: with `check_command` unset, `run_one` reports a Conflict-class
failure (exit code 1 at the process boundary) without issuing any
operation, while the standalone `check` command reports a Usage error
(exit code 10). -/
theorem C7_check_command_not_configured
    (envR : RunEnv) (envC : CheckEnv) (id : Nat) (ch : String)
    (hNext : envR.nextItem = some id)
    (hInit : envR.initialized = true)
    (hCfg : envR.configLockFree = true)
    (hNone : envR.checkCommand = none)
    (hRes : envC.resolveChange = some ch)
    (hCNone : envC.checkCommand = none) :
    (run_one envR).1 = .ok (.failure exit_codes.CONFLICT
        "check_command not configured") ∧
    (run_one envR).2 = [] ∧
    main_exit_code (run_single envR).1 = 1 ∧
    (check envC).1 = .error (.exitError exit_codes.USAGE
        "check_command not configured") ∧
    main_exit_code (check envC).1 = 10 := by
  have hrun : run_one envR = (.ok (.failure exit_codes.CONFLICT
      "check_command not configured"), []) := by
    unfold run_one
    rw [hNext, hCfg, hNone]
    rfl
  have hchk : (check envC).1 = .error (.exitError exit_codes.USAGE
      "check_command not configured") := by
    unfold check
    rw [hRes, hCNone]
  refine ⟨by rw [hrun], by rw [hrun], ?_, hchk, by rw [hchk]; rfl⟩
  unfold run_single
  rw [hInit, hrun]
  rfl

/-! ## C1: ordering of effects on the merge-strategy success path -/

/-- C1: on the merge-strategy success path of `run_one` (check exited zero,
trunk unchanged since the snapshot) the trunk bookmark is moved by
compare-and-swap from the snapshotted commit ID to the workspace head
strictly before the queue bookmark is deleted, and no failed bookmark is
created anywhere on that path. -/
theorem C1_merge_success_order (env : RunEnv) (id : Nat) (cmd : String)
    (hNext : env.nextItem = some id)
    (hCfg : env.configLockFree = true)
    (hCmd : env.checkCommand = some cmd)
    (hRun : env.runLockFree = true)
    (hStrat : env.strategy = Strategy.merge)
    (hConf : env.hasConflictsWs = false)
    (hEmpty : env.treesMatchTrunk = false)
    (hCheck : env.checkExitSuccess = true)
    (hSame : env.trunkCommitAtRecheck = env.trunkCommitAtSnapshot) :
    (run_one env).1 = .ok .success ∧
    (∃ l₁ l₂ l₃, (run_one env).2 =
        l₁ ++ Event.bookmarkMove env.trunkBookmark env.trunkCommitAtSnapshot "@"
          :: (l₂ ++ Event.bookmarkDelete (queue_bookmark id) :: l₃)) ∧
    (∀ m r, Event.bookmarkCreate (failed_bookmark m) r ∉ (run_one env).2) := by
  have hred : run_one env = (.ok .success,
      [Event.workspaceAdd env.workspacePath (run_workspace_name id)
         ["bookmarks(exact:" ++ env.trunkBookmark ++ ")",
          "bookmarks(exact:" ++ queue_bookmark id ++ ")"]]
      ++ record_workspace_metadata env id
      ++ [Event.describe (run_workspace_name id ++ "@")
            ("WIP: attempting merge " ++ natStr id),
          Event.bookmarkMove env.trunkBookmark env.trunkCommitAtSnapshot "@",
          Event.bookmarkDelete (queue_bookmark id),
          Event.describe "@" ("Success: merge " ++ natStr id),
          Event.workspaceForget (run_workspace_name id)]) := by
    unfold run_one
    rw [hNext, hCfg, hCmd, hRun, hStrat, hConf, hEmpty, hCheck, hSame]
    simp [record_workspace_metadata]
  refine ⟨by rw [hred], ?_, ?_⟩
  · refine ⟨[Event.workspaceAdd env.workspacePath (run_workspace_name id)
        ["bookmarks(exact:" ++ env.trunkBookmark ++ ")",
         "bookmarks(exact:" ++ queue_bookmark id ++ ")"]]
      ++ record_workspace_metadata env id
      ++ [Event.describe (run_workspace_name id ++ "@")
            ("WIP: attempting merge " ++ natStr id)],
      [],
      [Event.describe "@" ("Success: merge " ++ natStr id),
       Event.workspaceForget (run_workspace_name id)], ?_⟩
    rw [hred]
    simp [record_workspace_metadata]
  · intro m r
    rw [hred]
    simp [record_workspace_metadata]

/-! ## C2: the trunk-moved path of `run_one` -/

/-- C2: when the trunk commit ID re-read after the check differs from the
snapshot, `run_one` returns `Failure(Conflict, "trunk moved during run")`,
deletes no bookmark (in particular not the queue bookmark), moves no
bookmark (in particular not trunk), abandons every rebase duplicate, and
forgets the run workspace. -/
theorem C2_trunk_moved_retry (env : RunEnv) (id : Nat) (cmd : String)
    (hNext : env.nextItem = some id)
    (hCfg : env.configLockFree = true)
    (hCmd : env.checkCommand = some cmd)
    (hRun : env.runLockFree = true)
    (hConf : env.hasConflictsWs = false)
    (hEmpty : env.treesMatchTrunk = false)
    (hCheck : env.checkExitSuccess = true)
    (hMoved : env.trunkCommitAtRecheck ≠ env.trunkCommitAtSnapshot) :
    (run_one env).1 = .ok (.failure exit_codes.CONFLICT "trunk moved during run") ∧
    Event.bookmarkDelete (queue_bookmark id) ∉ (run_one env).2 ∧
    (∀ a b, Event.bookmarkMove env.trunkBookmark a b ∉ (run_one env).2) ∧
    (env.strategy = Strategy.rebase →
      ∀ d ∈ env.rebaseDuplicateIds, Event.abandon d ∈ (run_one env).2) ∧
    Event.workspaceForget (run_workspace_name id) ∈ (run_one env).2 := by
  cases hS : env.strategy with
  | merge =>
    have hred : run_one env = (.ok (.failure exit_codes.CONFLICT
        "trunk moved during run"),
        [Event.workspaceAdd env.workspacePath (run_workspace_name id)
           ["bookmarks(exact:" ++ env.trunkBookmark ++ ")",
            "bookmarks(exact:" ++ queue_bookmark id ++ ")"]]
        ++ record_workspace_metadata env id
        ++ [Event.describe (run_workspace_name id ++ "@")
              ("WIP: attempting merge " ++ natStr id),
            Event.printErr
              "trunk bookmark moved during run; queue item left in place, re-run to retry",
            Event.workspaceForget (run_workspace_name id)]) := by
      unfold run_one rebase_dups
      rw [hNext, hCfg, hCmd, hRun, hS, hConf, hEmpty, hCheck]
      simp [record_workspace_metadata, hMoved]
    refine ⟨by rw [hred], ?_, ?_, ?_, ?_⟩
    · rw [hred]; simp [record_workspace_metadata]
    · intro a b; rw [hred]; simp [record_workspace_metadata]
    · intro h; exact Strategy.noConfusion h
    · rw [hred]; simp [record_workspace_metadata]
  | rebase =>
    have hred : run_one env = (.ok (.failure exit_codes.CONFLICT
        "trunk moved during run"),
        [Event.duplicateOnto ("bookmarks(exact:" ++ queue_bookmark id ++ ")")
           ("bookmarks(exact:" ++ env.trunkBookmark ++ ")"),
         Event.workspaceAdd env.workspacePath (run_workspace_name id)
           [env.rebaseDuplicateIds.getLastD ""]]
        ++ record_workspace_metadata env id
        ++ [Event.edit env.rebaseParentRev,
            Event.describe (run_workspace_name id ++ "@")
              ("WIP: attempting merge " ++ natStr id)]
        ++ env.rebaseDuplicateIds.map Event.abandon
        ++ [Event.printErr
              "trunk bookmark moved during run; queue item left in place, re-run to retry",
            Event.workspaceForget (run_workspace_name id)]) := by
      unfold run_one rebase_dups
      rw [hNext, hCfg, hCmd, hRun, hS, hConf, hEmpty, hCheck]
      simp [record_workspace_metadata, hMoved]
    refine ⟨by rw [hred], ?_, ?_, ?_, ?_⟩
    · rw [hred]
      simp [record_workspace_metadata]
    · intro a b
      rw [hred]
      simp [record_workspace_metadata]
    · intro _ d hd
      rw [hred]
      have hm : Event.abandon d ∈ List.map Event.abandon env.rebaseDuplicateIds :=
        List.mem_map_of_mem _ hd
      simp only [List.append_assoc, List.mem_append]
      tauto
    · rw [hred]
      simp [record_workspace_metadata]

/-! ## Concrete environments for the witnesses -/

/-- A run environment on the merge-strategy success path. -/
def env_merge_success : RunEnv :=
  { nextItem := some 1, initialized := true, configLockFree := true,
    checkCommand := some "make test", strategy := .merge,
    trunkBookmark := "main", runLockFree := true,
    trunkCommitAtSnapshot := "t0", candidateChangeId := "cch",
    candidateCommitId := "cco", candidateDescription := "msg",
    workspacePath := "ws", metaPath := "meta", pid := 7,
    rebaseDuplicateIds := [], rebaseParentRev := "p",
    hasConflictsWs := false, treesMatchTrunk := false,
    checkExitSuccess := true, trunkCommitAtRecheck := "t0",
    landedChangeId := "l" }

/-- A run environment (rebase strategy) where trunk moved during the check. -/
def env_trunk_moved : RunEnv :=
  { nextItem := some 2, initialized := true, configLockFree := true,
    checkCommand := some "make test", strategy := .rebase,
    trunkBookmark := "main", runLockFree := true,
    trunkCommitAtSnapshot := "t0", candidateChangeId := "cch",
    candidateCommitId := "cco", candidateDescription := "msg",
    workspacePath := "ws", metaPath := "meta", pid := 7,
    rebaseDuplicateIds := ["d1", "d2"], rebaseParentRev := "p",
    hasConflictsWs := false, treesMatchTrunk := false,
    checkExitSuccess := true, trunkCommitAtRecheck := "t1",
    landedChangeId := "l" }

/-- A run environment with no configured check command. -/
def env_no_check_command : RunEnv :=
  { nextItem := some 3, initialized := true, configLockFree := true,
    checkCommand := none, strategy := .merge,
    trunkBookmark := "main", runLockFree := true,
    trunkCommitAtSnapshot := "t0", candidateChangeId := "cch",
    candidateCommitId := "cco", candidateDescription := "msg",
    workspacePath := "ws", metaPath := "meta", pid := 7,
    rebaseDuplicateIds := [], rebaseParentRev := "p",
    hasConflictsWs := false, treesMatchTrunk := false,
    checkExitSuccess := true, trunkCommitAtRecheck := "t0",
    landedChangeId := "l" }

/-- A `check` environment with no configured check command. -/
def checkenv_unset : CheckEnv :=
  { revset := "@", resolveChange := some "c", checkCommand := none,
    checkExitSuccess := true, workspacePath := "cw", pid := 7 }

theorem C1_merge_success_order_witness :
    (run_one env_merge_success).1 = .ok .success ∧
    (∃ l₁ l₂ l₃, (run_one env_merge_success).2 =
        l₁ ++ Event.bookmarkMove env_merge_success.trunkBookmark
                env_merge_success.trunkCommitAtSnapshot "@"
          :: (l₂ ++ Event.bookmarkDelete (queue_bookmark 1) :: l₃)) ∧
    (∀ m r, Event.bookmarkCreate (failed_bookmark m) r ∉
        (run_one env_merge_success).2) :=
  C1_merge_success_order env_merge_success 1 "make test"
    rfl rfl rfl rfl rfl rfl rfl rfl rfl

theorem C2_trunk_moved_retry_witness :
    (run_one env_trunk_moved).1 =
      .ok (.failure exit_codes.CONFLICT "trunk moved during run") ∧
    Event.bookmarkDelete (queue_bookmark 2) ∉ (run_one env_trunk_moved).2 ∧
    (∀ a b, Event.bookmarkMove env_trunk_moved.trunkBookmark a b ∉
        (run_one env_trunk_moved).2) ∧
    (env_trunk_moved.strategy = Strategy.rebase →
      ∀ d ∈ env_trunk_moved.rebaseDuplicateIds,
        Event.abandon d ∈ (run_one env_trunk_moved).2) ∧
    Event.workspaceForget (run_workspace_name 2) ∈ (run_one env_trunk_moved).2 :=
  C2_trunk_moved_retry env_trunk_moved 2 "make test"
    rfl rfl rfl rfl rfl rfl rfl (by decide)

theorem C7_check_command_not_configured_witness :
    (run_one env_no_check_command).1 = .ok (.failure exit_codes.CONFLICT
        "check_command not configured") ∧
    (run_one env_no_check_command).2 = [] ∧
    main_exit_code (run_single env_no_check_command).1 = 1 ∧
    (check checkenv_unset).1 = .error (.exitError exit_codes.USAGE
        "check_command not configured") ∧
    main_exit_code (check checkenv_unset).1 = 10 :=
  C7_check_command_not_configured env_no_check_command checkenv_unset 3 "c"
    rfl rfl rfl rfl rfl rfl

/-! ## Lemmas about the push scans -/

theorem scan_queue_rejected_of_commit (changeId commitId : String) :
    ∀ qs : List QEntry, (∃ e ∈ qs, e.commitId = commitId) →
      (scan_queue changeId commitId qs).2 = true := by
  intro qs
  induction qs with
  | nil => rintro ⟨e, he, _⟩; cases he
  | cons e rest ih =>
    rintro ⟨f, hf, hfc⟩
    unfold scan_queue
    by_cases hc : e.commitId = commitId
    · rw [if_pos hc]
    · rw [if_neg hc]
      have hfrest : f ∈ rest := by
        rcases List.mem_cons.mp hf with h | h
        · subst h; exact absurd hfc hc
        · exact h
      by_cases hch : e.changeId = changeId
      · rw [if_pos hch]
        exact ih ⟨f, hfrest, hfc⟩
      · rw [if_neg hch]
        exact ih ⟨f, hfrest, hfc⟩

theorem scan_queue_not_rejected (changeId commitId : String) :
    ∀ qs : List QEntry, (∀ e ∈ qs, e.commitId ≠ commitId) →
      (scan_queue changeId commitId qs).2 = false := by
  intro qs
  induction qs with
  | nil => intro _; rfl
  | cons e rest ih =>
    intro h
    unfold scan_queue
    rw [if_neg (h e (List.mem_cons_self e rest))]
    by_cases hch : e.changeId = changeId
    · rw [if_pos hch]
      exact ih (fun f hf => h f (List.mem_cons_of_mem e hf))
    · rw [if_neg hch]
      exact ih (fun f hf => h f (List.mem_cons_of_mem e hf))

theorem scan_queue_no_create (changeId commitId : String) :
    ∀ qs : List QEntry, ∀ ev ∈ (scan_queue changeId commitId qs).1,
      ∀ n r, ev ≠ Event.bookmarkCreate n r := by
  intro qs
  induction qs with
  | nil => intro ev hev; cases hev
  | cons e rest ih =>
    intro ev hev n r
    unfold scan_queue at hev
    by_cases hc : e.commitId = commitId
    · rw [if_pos hc] at hev
      rcases List.mem_singleton.mp hev with h
      subst h; intro h; cases h
    · rw [if_neg hc] at hev
      by_cases hch : e.changeId = changeId
      · rw [if_pos hch] at hev
        rcases List.mem_cons.mp hev with h | hev
        · subst h; intro h; cases h
        rcases List.mem_cons.mp hev with h | hev
        · subst h; intro h; cases h
        · exact ih ev hev n r
      · rw [if_neg hch] at hev
        exact ih ev hev n r

theorem scan_queue_deletes_stale (changeId commitId : String) :
    ∀ qs : List QEntry, (∀ e ∈ qs, e.commitId ≠ commitId) →
      ∀ e ∈ qs, e.changeId = changeId →
        Event.bookmarkDelete e.name ∈ (scan_queue changeId commitId qs).1 ∧
        Event.print ("replacing queued entry "
            ++ natStr (extract_id_from_bookmark e.name))
          ∈ (scan_queue changeId commitId qs).1 := by
  intro qs
  induction qs with
  | nil => intro _ e he; cases he
  | cons f rest ih =>
    intro hno e he hch
    unfold scan_queue
    rw [if_neg (hno f (List.mem_cons_self f rest))]
    have hnorest : ∀ g ∈ rest, g.commitId ≠ commitId :=
      fun g hg => hno g (List.mem_cons_of_mem f hg)
    rcases List.mem_cons.mp he with h | hrest
    · subst h
      rw [if_pos hch]
      exact ⟨List.mem_cons_self _ _,
        List.mem_cons_of_mem _ (List.mem_cons_self _ _)⟩
    · by_cases hfch : f.changeId = changeId
      · rw [if_pos hfch]
        obtain ⟨h1, h2⟩ := ih hnorest e hrest hch
        exact ⟨List.mem_cons_of_mem _ (List.mem_cons_of_mem _ h1),
          List.mem_cons_of_mem _ (List.mem_cons_of_mem _ h2)⟩
      · rw [if_neg hfch]
        exact ih hnorest e hrest hch

theorem scan_failed_deletes (changeId : String) :
    ∀ fs : List FEntry, ∀ f ∈ fs,
      lookupKey "candidate" (extract_trailers f.desc) = some changeId →
        Event.bookmarkDelete f.name ∈ scan_failed changeId fs ∧
        Event.print ("clearing failed entry "
            ++ natStr (extract_id_from_bookmark f.name))
          ∈ scan_failed changeId fs := by
  intro fs
  induction fs with
  | nil => intro f hf; cases hf
  | cons g rest ih =>
    intro f hf hcand
    rcases List.mem_cons.mp hf with h | hrest
    · subst h
      unfold scan_failed
      simp only [hcand, if_pos rfl]
      exact ⟨List.mem_cons_self _ _,
        List.mem_cons_of_mem _ (List.mem_cons_self _ _)⟩
    · obtain ⟨h1, h2⟩ := ih f hrest hcand
      unfold scan_failed
      cases hg : lookupKey "candidate" (extract_trailers g.desc) with
      | none => simp only [hg]; exact ⟨h1, h2⟩
      | some c =>
        by_cases hc : c = changeId
        · simp only [hg, if_pos hc]
          exact ⟨List.mem_cons_of_mem _ (List.mem_cons_of_mem _ h1),
            List.mem_cons_of_mem _ (List.mem_cons_of_mem _ h2)⟩
        · simp only [hg, if_neg hc]
          exact ⟨h1, h2⟩

/-- When the queue scan rejects nothing, the push trace starts with the two
scans' events (whatever happens later). -/
theorem push_trace_decomposition (env : PushEnv) (changeId commitId : String)
    (hRes : env.resolveResult = some (changeId, commitId))
    (hTrunk : env.trunkExists = true)
    (hNo : ∀ e ∈ env.queueEntries, e.commitId ≠ commitId) :
    ∃ rest, (push env).2 =
      (scan_queue changeId commitId env.queueEntries).1
        ++ scan_failed changeId env.failedEntries ++ rest := by
  have h1 := scan_queue_not_rejected changeId commitId env.queueEntries hNo
  unfold push
  rw [hRes]
  simp only [hTrunk, Bool.not_true, h1, Bool.false_eq_true, if_false]
  cases hcf : env.hasConflictsRes with
  | error e =>
    exact ⟨[Event.newRev [env.trunkBookmark, env.revset],
            Event.abandon env.conflictCheckId], by simp⟩
  | ok b =>
    cases b with
    | true =>
      exact ⟨[Event.newRev [env.trunkBookmark, env.revset],
              Event.abandon env.conflictCheckId], by simp⟩
    | false =>
      cases hb : env.initialized with
      | false =>
        exact ⟨[Event.newRev [env.trunkBookmark, env.revset],
                Event.abandon env.conflictCheckId], by simp⟩
      | true =>
        cases hni : next_id env with
        | mk r nevs =>
          cases r with
          | error e =>
            exact ⟨[Event.newRev [env.trunkBookmark, env.revset],
                    Event.abandon env.conflictCheckId] ++ nevs, by simp⟩
          | ok idv =>
            exact ⟨[Event.newRev [env.trunkBookmark, env.revset],
                    Event.abandon env.conflictCheckId] ++ nevs
                   ++ [Event.bookmarkCreate (queue_bookmark idv) env.revset],
                   by simp⟩

/-! ## C3: idempotent push -/

/-- C3: for a push resolving to `(change_id, commit_id)` with trunk present:
if some queue bookmark points at the same commit ID the push is rejected
with "revision already queued" and creates no bookmark; otherwise every
queue bookmark at the same change ID (but different commit) is deleted with
a replace announcement, and every failed bookmark whose `jjq-candidate`
trailer equals the change ID is deleted with a clear announcement. -/
theorem C3_push_idempotency (env : PushEnv) (changeId commitId : String)
    (hRes : env.resolveResult = some (changeId, commitId))
    (hTrunk : env.trunkExists = true) :
    ((∃ e ∈ env.queueEntries, e.commitId = commitId) →
       (push env).1 = .error (.exitError exit_codes.USAGE
           "revision already queued") ∧
       ∀ n r, Event.bookmarkCreate n r ∉ (push env).2) ∧
    ((∀ e ∈ env.queueEntries, e.commitId ≠ commitId) →
       (∀ e ∈ env.queueEntries, e.changeId = changeId →
          Event.bookmarkDelete e.name ∈ (push env).2 ∧
          Event.print ("replacing queued entry "
              ++ natStr (extract_id_from_bookmark e.name)) ∈ (push env).2) ∧
       (∀ f ∈ env.failedEntries,
          lookupKey "candidate" (extract_trailers f.desc) = some changeId →
          Event.bookmarkDelete f.name ∈ (push env).2 ∧
          Event.print ("clearing failed entry "
              ++ natStr (extract_id_from_bookmark f.name)) ∈ (push env).2)) := by
  constructor
  · intro hex
    have hrej := scan_queue_rejected_of_commit changeId commitId env.queueEntries hex
    have hpush : push env = (.error (.exitError exit_codes.USAGE
        "revision already queued"),
        (scan_queue changeId commitId env.queueEntries).1) := by
      unfold push
      rw [hRes]
      simp only [hTrunk, Bool.not_true, hrej, Bool.false_eq_true, if_false,
        if_true, if_pos rfl]
    refine ⟨by rw [hpush], ?_⟩
    intro n r hmem
    rw [hpush] at hmem
    exact scan_queue_no_create changeId commitId env.queueEntries _ hmem n r rfl
  · intro hno
    obtain ⟨rest, htr⟩ := push_trace_decomposition env changeId commitId hRes hTrunk hno
    constructor
    · intro e he hch
      obtain ⟨h1, h2⟩ :=
        scan_queue_deletes_stale changeId commitId env.queueEntries hno e he hch
      rw [htr]
      exact ⟨List.mem_append_left _ (List.mem_append_left _ h1),
        List.mem_append_left _ (List.mem_append_left _ h2)⟩
    · intro f hf hcand
      obtain ⟨h1, h2⟩ := scan_failed_deletes changeId env.failedEntries f hf hcand
      rw [htr]
      exact ⟨List.mem_append_left _ (List.mem_append_right _ h1),
        List.mem_append_left _ (List.mem_append_right _ h2)⟩

/-! ## C9: the pre-flight conflict check always abandons its merge commit -/

/-- C9: every push reaching the pre-flight conflict check abandons the
ephemeral headless merge commit — when the conflict query answers false,
answers true, and when it errors — and a conflicting revision yields a
conflict-class error (exit code 1). -/
theorem C9_preflight_abandon (env : PushEnv) (changeId commitId : String)
    (hRes : env.resolveResult = some (changeId, commitId))
    (hTrunk : env.trunkExists = true)
    (hNo : ∀ e ∈ env.queueEntries, e.commitId ≠ commitId) :
    Event.abandon env.conflictCheckId ∈ (push env).2 ∧
    (env.hasConflictsRes = .ok true →
      (push env).1 = .error (.exitError exit_codes.CONFLICT
          "revision conflicts with trunk") ∧
      main_exit_code (push env).1 = 1) := by
  have hfalse := scan_queue_not_rejected changeId commitId env.queueEntries hNo
  constructor
  · unfold push
    rw [hRes]
    simp only [hTrunk, Bool.not_true, hfalse, Bool.false_eq_true, if_false]
    cases hcf : env.hasConflictsRes with
    | error e => simp
    | ok b =>
      cases b with
      | true => simp
      | false =>
        cases hb : env.initialized with
        | false => simp
        | true =>
          cases hni : next_id env with
          | mk r nevs =>
            cases r with
            | error e => simp
            | ok idv => simp
  · intro hconf
    have hpush1 : (push env).1 = .error (.exitError exit_codes.CONFLICT
        "revision conflicts with trunk") := by
      unfold push
      rw [hRes]
      simp only [hTrunk, Bool.not_true, hfalse, Bool.false_eq_true, if_false, hconf]
      simp
    exact ⟨hpush1, by rw [hpush1]; rfl⟩

/-! ## C5: exit codes of lock-held failures -/

/-- C5 (amended): a held run lock makes `run_one` return
`Failure(Conflict, "run lock unavailable")`, surfacing as exit code 1; a
held id lock during `push`'s sequence-ID allocation in `next_id` surfaces
as exit code 3 (`LOCK_HELD`), not 1. -/
theorem C5_lock_held_exit_codes
    (envR : RunEnv) (id : Nat) (cmd : String)
    (envP : PushEnv) (changeId commitId : String)
    (hNext : envR.nextItem = some id)
    (hInit : envR.initialized = true)
    (hCfg : envR.configLockFree = true)
    (hCmd : envR.checkCommand = some cmd)
    (hHeld : envR.runLockFree = false)
    (hRes : envP.resolveResult = some (changeId, commitId))
    (hTrunk : envP.trunkExists = true)
    (hNo : ∀ e ∈ envP.queueEntries, e.commitId ≠ commitId)
    (hNoConf : envP.hasConflictsRes = .ok false)
    (hPInit : envP.initialized = true)
    (hIdHeld : envP.idLockFree = false) :
    (run_one envR).1 = .ok (.failure exit_codes.CONFLICT "run lock unavailable") ∧
    main_exit_code (run_single envR).1 = 1 ∧
    (push envP).1 = .error (.exitError exit_codes.LOCK_HELD
        "could not acquire sequence ID lock (another process may be pushing)") ∧
    main_exit_code (push envP).1 = exit_codes.LOCK_HELD ∧
    exit_codes.LOCK_HELD = 3 := by
  have hrun : run_one envR = (.ok (.failure exit_codes.CONFLICT
      "run lock unavailable"), []) := by
    unfold run_one
    rw [hNext, hCfg, hCmd, hHeld]
    rfl
  have hni : next_id envP = (.error (.exitError exit_codes.LOCK_HELD
      "could not acquire sequence ID lock (another process may be pushing)"),
      []) := by
    unfold next_id
    rw [hIdHeld]
    rfl
  have hfalse := scan_queue_not_rejected changeId commitId envP.queueEntries hNo
  have hpush : (push envP).1 = .error (.exitError exit_codes.LOCK_HELD
      "could not acquire sequence ID lock (another process may be pushing)") := by
    unfold push
    rw [hRes]
    simp only [hTrunk, Bool.not_true, hfalse, Bool.false_eq_true, if_false,
      hNoConf, hPInit, hni]
  refine ⟨by rw [hrun], ?_, hpush, by rw [hpush]; rfl, rfl⟩
  unfold run_single
  rw [hInit, hrun]
  rfl

/-- A concrete push environment in which the id lock is held. -/
def env_id_lock_held : PushEnv :=
  { revset := "r", resolveResult := some ("cch", "cco"),
    trunkBookmark := "main", trunkExists := true,
    queueEntries := [], failedEntries := [], conflictCheckId := "k",
    hasConflictsRes := .ok false, initialized := true,
    idLockFree := false, lastId := 0, idWorkspacePath := "iw", pid := 9 }

/-- C5 counterexample: with the id lock held, `push` reaches the process
boundary with exit code 3, not 1 — refuting the claim that every lock-held
failure surfaces as exit code 1. -/
theorem C5_id_lock_exit_code_counterexample :
    main_exit_code (push env_id_lock_held).1 = 3 ∧ (3 : Nat) ≠ 1 :=
  ⟨by decide, by decide⟩

/-- A run environment in which the run lock is held. -/
def env_run_lock_held : RunEnv :=
  { nextItem := some 4, initialized := true, configLockFree := true,
    checkCommand := some "make test", strategy := .merge,
    trunkBookmark := "main", runLockFree := false,
    trunkCommitAtSnapshot := "t0", candidateChangeId := "cch",
    candidateCommitId := "cco", candidateDescription := "msg",
    workspacePath := "ws", metaPath := "meta", pid := 7,
    rebaseDuplicateIds := [], rebaseParentRev := "p",
    hasConflictsWs := false, treesMatchTrunk := false,
    checkExitSuccess := true, trunkCommitAtRecheck := "t0",
    landedChangeId := "l" }

theorem C5_lock_held_exit_codes_witness :
    (run_one env_run_lock_held).1 =
      .ok (.failure exit_codes.CONFLICT "run lock unavailable") ∧
    main_exit_code (run_single env_run_lock_held).1 = 1 ∧
    (push env_id_lock_held).1 = .error (.exitError exit_codes.LOCK_HELD
        "could not acquire sequence ID lock (another process may be pushing)") ∧
    main_exit_code (push env_id_lock_held).1 = exit_codes.LOCK_HELD ∧
    exit_codes.LOCK_HELD = 3 :=
  C5_lock_held_exit_codes env_run_lock_held 4 "make test"
    env_id_lock_held "cch" "cco"
    rfl rfl rfl rfl rfl rfl rfl (by decide) rfl rfl rfl

/-- A stale queue entry for the same change at an older commit. -/
def stale_queue_entry : QEntry :=
  { name := "jjq/queue/000005", changeId := "cch", commitId := "old" }

/-- A failed entry whose `jjq-candidate` trailer names the pushed change. -/
def matching_failed_entry : FEntry :=
  { name := "jjq/failed/000004",
    desc := "Failed: merge 4 (check)\n\njjq-candidate: cch" }

/-- A push environment exercising the idempotency scans: one stale queue
entry with the pushed change ID, one failed entry whose trailer matches. -/
def env_push_scans : PushEnv :=
  { revset := "r", resolveResult := some ("cch", "cco"),
    trunkBookmark := "main", trunkExists := true,
    queueEntries := [stale_queue_entry],
    failedEntries := [matching_failed_entry],
    conflictCheckId := "k", hasConflictsRes := .ok false, initialized := true,
    idLockFree := true, lastId := 5, idWorkspacePath := "iw", pid := 9 }

theorem C3_push_idempotency_witness :
    Event.bookmarkDelete stale_queue_entry.name ∈ (push env_push_scans).2 ∧
    Event.print ("replacing queued entry "
        ++ natStr (extract_id_from_bookmark stale_queue_entry.name))
      ∈ (push env_push_scans).2 ∧
    Event.bookmarkDelete matching_failed_entry.name ∈ (push env_push_scans).2 ∧
    Event.print ("clearing failed entry "
        ++ natStr (extract_id_from_bookmark matching_failed_entry.name))
      ∈ (push env_push_scans).2 := by
  have h := C3_push_idempotency env_push_scans "cch" "cco" rfl rfl
  have h2 := h.2 (by decide)
  have hq := h2.1 stale_queue_entry (by decide) (by decide)
  have hf := h2.2 matching_failed_entry (by decide) (by decide)
  exact ⟨hq.1, hq.2, hf.1, hf.2⟩

theorem C9_preflight_abandon_witness :
    Event.abandon env_push_scans.conflictCheckId ∈ (push env_push_scans).2 ∧
    (env_push_scans.hasConflictsRes = .ok true →
      (push env_push_scans).1 = .error (.exitError exit_codes.CONFLICT
          "revision conflicts with trunk") ∧
      main_exit_code (push env_push_scans).1 = 1) :=
  C9_preflight_abandon env_push_scans "cch" "cco" rfl rfl (by decide)

/-! ## C4: trailer round-trip — line parsing lemmas -/

theorem splitOnceCS_key (v : List Char) :
    ∀ key : List Char, ':' ∉ key →
      splitOnceCS [':', ' '] (key ++ ':' :: ' ' :: v) = some (key, v) := by
  intro key
  induction key with
  | nil =>
    intro _
    simp [splitOnceCS, List.isPrefixOf]
  | cons c key ih =>
    intro hc
    have hcne : c ≠ ':' := fun h => hc (h ▸ List.mem_cons_self c key)
    have hbeq : (':' == c) = false := by
      rw [beq_eq_false_iff_ne]
      exact fun h => hcne h.symm
    have hrec := ih (fun h => hc (List.mem_cons_of_mem c h))
    rw [List.cons_append]
    simp [splitOnceCS, List.isPrefixOf, hbeq, hrec]

theorem dropPre_self (p rest : List Char) :
    dropPre p (p ++ rest) = some rest := by
  unfold dropPre
  rw [if_pos]
  · rw [List.drop_left]
  · exact List.isPrefixOf_iff_prefix.mpr (List.prefix_append p rest)

theorem trailerOfLine_nil : trailerOfLine [] = none := rfl

theorem trailerOfLine_not_jjq (c : Char) (rest : List Char) (h : c ≠ 'j') :
    trailerOfLine (c :: rest) = none := by
  unfold trailerOfLine dropPre
  rw [if_neg]
  simp only [List.isPrefixOf, Bool.and_eq_true, beq_iff_eq]
  intro hpre
  exact h hpre.1.symm

/-- Parsing one generated trailer line `jjq-<key>: <value>` recovers the
key and the trimmed value. -/
theorem trailerOfLine_trailer (pre : String) (key : List Char) (v : String)
    (hk : ':' ∉ key)
    (hpre : pre.data = "jjq-".data ++ (key ++ [':', ' '])) :
    trailerOfLine ((pre ++ v).data) = some (⟨key⟩, ⟨trimChars v.data⟩) := by
  unfold trailerOfLine
  have hdata : (pre ++ v).data = "jjq-".data ++ (key ++ ':' :: ' ' :: v.data) := by
    rw [String.data_append, hpre]
    simp
  have hsep : ": ".data = [':', ' '] := by decide
  rw [hdata, dropPre_self]
  simp only [hsep, splitOnceCS_key v.data key hk]

/-! ## C4: `str::lines` on joined lines -/

theorem rustLinesCore_no_newline :
    ∀ (l cur : List Char), '\n' ∉ l →
      rustLinesCore cur l = [stripCR (cur.reverse ++ l)] := by
  intro l
  induction l with
  | nil => intro cur _; simp [rustLinesCore]
  | cons c rest ih =>
    intro cur hnl
    have hc : c ≠ '\n' := fun h => hnl (h ▸ List.mem_cons_self c rest)
    unfold rustLinesCore
    rw [if_neg hc, ih (c :: cur) (fun h => hnl (List.mem_cons_of_mem c h))]
    simp

theorem rustLinesCore_append_newline :
    ∀ (l cur rest : List Char), '\n' ∉ l →
      rustLinesCore cur (l ++ '\n' :: rest) =
        stripCR (cur.reverse ++ l)
          :: (if rest.isEmpty then [] else rustLinesCore [] rest) := by
  intro l
  induction l with
  | nil =>
    intro cur rest _
    simp only [List.nil_append]
    conv_lhs => rw [rustLinesCore]
    rw [if_pos rfl]
    simp
  | cons c tail ih =>
    intro cur rest hnl
    have hc : c ≠ '\n' := fun h => hnl (h ▸ List.mem_cons_self c tail)
    rw [List.cons_append]
    conv_lhs => rw [rustLinesCore]
    rw [if_neg hc, ih (c :: cur) rest (fun h => hnl (List.mem_cons_of_mem c h))]
    simp

theorem joinNL_ne_nil_iff :
    ∀ ls : List (List Char), ls ≠ [] → (joinNL ls = [] ↔ ls = [[]]) := by
  intro ls
  match ls with
  | [] => intro h; exact absurd rfl h
  | [l] =>
    intro _
    constructor
    · intro h; rw [show joinNL [l] = l from rfl] at h; rw [h]
    · intro h; cases h; rfl
  | l :: m :: rest =>
    intro _
    constructor
    · intro h
      rw [show joinNL (l :: m :: rest) = l ++ '\n' :: joinNL (m :: rest) from rfl] at h
      exact absurd h (by simp)
    · intro h; cases h

/-- Rust `lines` of a newline-join of newline-free `\r`-clean lines gives
the lines back, except that one trailing empty line is absorbed by the
final line terminator. -/
theorem rustLines_joinNL :
    ∀ ls : List (List Char),
      (∀ l ∈ ls, '\n' ∉ l ∧ stripCR l = l) → ls ≠ [] →
      rustLines (joinNL ls) =
        (if ls.getLast? = some [] then ls.dropLast else ls) := by
  intro ls
  induction ls with
  | nil => intro _ h; exact absurd rfl h
  | cons l rest ih =>
    intro hgood _
    obtain ⟨hnl, hcr⟩ := hgood l (List.mem_cons_self l rest)
    cases hrest : rest with
    | nil =>
      subst hrest
      rw [show joinNL [l] = l from rfl]
      cases hl : l with
      | nil => simp [rustLines]
      | cons c t =>
        rw [← hl]
        have hne : l ≠ [] := by rw [hl]; simp
        have : rustLines l = rustLinesCore [] l := by
          rw [hl]; rfl
        rw [this, rustLinesCore_no_newline l [] hnl]
        simp only [List.reverse_nil, List.nil_append, hcr]
        have hlast : ([l].getLast? = some ([] : List Char)) ↔ False := by
          simp [List.getLast?]
          intro h
          exact hne h
        rw [if_neg (by rw [hlast]; exact fun h => h)]
    | cons m tail =>
      rw [← hrest]
      have hrestne : rest ≠ [] := by rw [hrest]; simp
      have hjoin : joinNL (l :: rest) = l ++ '\n' :: joinNL rest := by
        rw [hrest]; rfl
      have hrg : ∀ x ∈ rest, '\n' ∉ x ∧ stripCR x = x :=
        fun x hx => hgood x (List.mem_cons_of_mem l hx)
      have hcore : rustLines (joinNL (l :: rest)) =
          stripCR l :: (if (joinNL rest).isEmpty then []
            else rustLinesCore [] (joinNL rest)) := by
        rw [hjoin]
        have hne2 : l ++ '\n' :: joinNL rest ≠ [] := by simp
        have : rustLines (l ++ '\n' :: joinNL rest) =
            rustLinesCore [] (l ++ '\n' :: joinNL rest) := by
          cases hl2 : l ++ '\n' :: joinNL rest with
          | nil => exact absurd hl2 hne2
          | cons a b => rw [← hl2]; rw [hl2]; rfl
        rw [this, rustLinesCore_append_newline l [] (joinNL rest) hnl]
        simp
      rw [hcore, hcr]
      by_cases hjr : joinNL rest = []
      · have hre : rest = [[]] := (joinNL_ne_nil_iff rest hrestne).mp hjr
        subst hre
        rw [hjr]
        simp [List.getLast?]
      · have hjne : (joinNL rest).isEmpty = false := by
          cases hj : joinNL rest with
          | nil => exact absurd hj hjr
          | cons a b => rfl
        rw [hjne]
        simp only [Bool.false_eq_true, if_false]
        have hrl : rustLinesCore [] (joinNL rest) = rustLines (joinNL rest) := by
          cases hj : joinNL rest with
          | nil => exact absurd hj hjr
          | cons a b => rw [← hj]; rw [hj]; rfl
        rw [hrl, ih hrg hrestne]
        have hlast : (l :: rest).getLast? = rest.getLast? := by
          rw [hrest]
          exact List.getLast?_cons_cons
        have hdrop : (l :: rest).dropLast = l :: rest.dropLast := by
          rw [hrest]
          rfl
        by_cases hle : rest.getLast? = some ([] : List Char)
        · rw [if_pos hle, if_pos (by rw [hlast]; exact hle), hdrop]
        · rw [if_neg hle, if_neg (by rw [hlast]; exact hle)]

/-! ## C4: a trim-invariant value neither starts nor ends in whitespace -/

theorem getLast_not_ws_of_trimmed (l : List Char) (h : trimChars l = l)
    (c : Char) (hc : l.getLast? = some c) : isWS c = false := by
  by_contra hws
  have hws' : isWS c = true := by
    cases hb : isWS c with
    | false => exact absurd hb hws
    | true => rfl
  set d := l.dropWhile isWS with hd
  have hdsuffix : d <:+ l := List.dropWhile_suffix isWS
  have hlen : (trimChars l).length = (d.reverse.dropWhile isWS).length := by
    unfold trimChars
    rw [← hd, List.length_reverse]
  cases hdn : d with
  | nil =>
    have : trimChars l = [] := by
      unfold trimChars
      rw [← hd, hdn]
      rfl
    rw [h] at this
    rw [this] at hc
    cases hc
  | cons a t =>
    have hdne : d ≠ [] := by rw [hdn]; simp
    have hdlast : d.getLast? = some c := by
      obtain ⟨pre, hpre⟩ := hdsuffix
      rw [← hpre] at hc
      rwa [List.getLast?_append_of_ne_nil pre hdne] at hc
    have hrev : ∃ t', d.reverse = c :: t' := by
      cases hr : d.reverse with
      | nil =>
        have : d = [] := by
          have := congrArg List.reverse hr
          simpa using this
        exact absurd this hdne
      | cons x t' =>
        have hx : x = c := by
          have h1 : d.reverse.head? = some x := by rw [hr]; rfl
          have h2 : d.reverse.head? = d.getLast? := List.head?_reverse d
          rw [h2, hdlast] at h1
          cases h1
          rfl
        exact ⟨t', by rw [hx]⟩
    obtain ⟨t', ht'⟩ := hrev
    have hdrop : (d.reverse.dropWhile isWS).length ≤ t'.length := by
      rw [ht', List.dropWhile_cons_of_pos hws']
      exact (List.dropWhile_suffix isWS).length_le
    have hdlen : d.length = t'.length + 1 := by
      have := congrArg List.length ht'
      simpa using this
    have hlelen : d.length ≤ l.length := hdsuffix.length_le
    have hfinal : (trimChars l).length < l.length := by
      rw [hlen]
      omega
    rw [h] at hfinal
    omega

/-! ## C4: the trailer map as a fold -/

/-- The per-line step of `extract_trailers`. -/
def trailerStep (m : List (String × String)) (l : List Char) :
    List (String × String) :=
  match trailerOfLine l with
  | some (k, v) => insertKV m k v
  | none => m

theorem extract_trailers_eq_fold (description : String) :
    extract_trailers description =
      (rustLines description.data).foldl trailerStep [] := rfl

theorem lookupKey_insertKV (m : List (String × String)) (k k' v : String) :
    lookupKey k (insertKV m k' v) =
      if k = k' then some v else lookupKey k m := by
  induction m with
  | nil =>
    unfold insertKV lookupKey
    by_cases h : k = k'
    · subst h; simp
    · simp [h, Ne.symm h]
  | cons p rest ih =>
    unfold insertKV
    by_cases hp : p.1 = k'
    · rw [if_pos hp]
      unfold lookupKey
      by_cases h : k = k'
      · subst h; simp
      · simp only [List.find?]
        have h1 : (decide (k' = k)) = false := by simp [Ne.symm h]
        have h2 : (decide (p.1 = k)) = false := by simp [hp ▸ Ne.symm h]
        simp [h1, h2, h]
    · rw [if_neg hp]
      unfold lookupKey at ih ⊢
      by_cases hpk : p.1 = k
      · have hkk' : ¬ k = k' := fun h => hp (hpk.trans h)
        simp only [List.find?]
        simp [hpk, hkk']
      · simp only [List.find?]
        simp only [show (decide (p.1 = k)) = false by simp [hpk]]
        exact ih

theorem lookupKey_foldl (ls : List (List Char)) :
    ∀ (m : List (String × String)) (k : String),
      lookupKey k (ls.foldl trailerStep m) =
        match ((ls.filterMap trailerOfLine).filter
            (fun p => decide (p.1 = k))).getLast? with
        | some p => some p.2
        | none => lookupKey k m := by
  induction ls with
  | nil => intro m k; simp
  | cons l rest ih =>
    intro m k
    rw [List.foldl_cons, List.filterMap_cons]
    cases hl : trailerOfLine l with
    | none =>
      have hstep : trailerStep m l = m := by unfold trailerStep; rw [hl]
      rw [hstep]
      exact ih m k
    | some kv =>
      obtain ⟨k', v⟩ := kv
      have hstep : trailerStep m l = insertKV m k' v := by
        unfold trailerStep; rw [hl]
      rw [hstep, List.filter_cons]
      by_cases hk : k' = k
      · subst hk
        rw [if_pos (by simp)]
        rw [ih (insertKV m k' v) k', lookupKey_insertKV m k' k' v]
        cases hrest : ((rest.filterMap trailerOfLine).filter
            (fun p => decide (p.1 = k'))).getLast? with
        | none =>
          simp only [hrest]
          have hcl : ((k', v) :: (rest.filterMap trailerOfLine).filter
              (fun p => decide (p.1 = k'))).getLast? = some (k', v) := by
            cases hfr : (rest.filterMap trailerOfLine).filter
                (fun p => decide (p.1 = k')) with
            | nil => rfl
            | cons a b =>
              rw [hfr] at hrest
              exact absurd (List.getLast?_eq_none_iff.mp hrest) (by simp)
          rw [hcl]
          simp
        | some p =>
          simp only [hrest]
          have hcl : ((k', v) :: (rest.filterMap trailerOfLine).filter
              (fun p => decide (p.1 = k'))).getLast? = some p := by
            cases hfr : (rest.filterMap trailerOfLine).filter
                (fun p => decide (p.1 = k')) with
            | nil => rw [hfr] at hrest; cases hrest
            | cons a b =>
              rw [List.getLast?_cons_cons, ← hfr, hrest]
          rw [hcl]
      · rw [if_neg (by simp [hk])]
        rw [ih (insertKV m k' v) k, lookupKey_insertKV m k k' v]
        rw [if_neg (fun h => hk h.symm)]

/-! ## C4: the failure description and its lines -/

theorem stripCR_of_last_not_cr (l : List Char) (h : l.getLast? ≠ some '\r') :
    stripCR l = l := by
  unfold stripCR
  rw [if_neg h]

/-- A generated trailer line is newline-free and carriage-return clean. -/
theorem trailer_line_good (pre v : String)
    (hpre_nl : '\n' ∉ pre.data) (hpre_last : pre.data.getLast? ≠ some '\r')
    (hv_nl : '\n' ∉ v.data) (hv_trim : trimChars v.data = v.data) :
    '\n' ∉ (pre ++ v).data ∧ stripCR ((pre ++ v).data) = (pre ++ v).data := by
  constructor
  · rw [String.data_append]
    intro hmem
    rcases List.mem_append.mp hmem with h | h
    exacts [hpre_nl h, hv_nl h]
  · apply stripCR_of_last_not_cr
    rw [String.data_append]
    cases hv : v.data with
    | nil => simpa [hv] using hpre_last
    | cons a t =>
      rw [List.getLast?_append_of_ne_nil pre.data (by simp)]
      intro hlast
      rw [← hv] at hlast
      have := getLast_not_ws_of_trimmed v.data hv_trim '\r' hlast
      exact absurd this (by decide)

theorem natStr_digits (n : Nat) : ∀ c ∈ (natStr n).data, isAsciiDigit c = true :=
  (natDigitsF_spec (n + 1) n (Nat.lt_succ_self n)).2.1

theorem digit_not_newline (c : Char) (h : isAsciiDigit c = true) : c ≠ '\n' := by
  intro he
  subst he
  exact absurd h (by decide)

theorem failure_description_data (id : Nat) (r cc cm tc ws : String) (st : Strategy) :
    (failure_description id r cc cm tc ws st).data =
      joinNL (failure_lines id r cc cm tc ws st) := by
  have b1 : (")\n\njjq-candidate: " : String).data
      = ")".data ++ '\n' :: '\n' :: "jjq-candidate: ".data := by decide
  have b2 : ("\njjq-candidate-commit: " : String).data
      = '\n' :: "jjq-candidate-commit: ".data := by decide
  have b3 : ("\njjq-trunk: " : String).data
      = '\n' :: "jjq-trunk: ".data := by decide
  have b4 : ("\njjq-workspace: " : String).data
      = '\n' :: "jjq-workspace: ".data := by decide
  have b5 : ("\njjq-failure: " : String).data
      = '\n' :: "jjq-failure: ".data := by decide
  have b6 : ("\njjq-strategy: " : String).data
      = '\n' :: "jjq-strategy: ".data := by decide
  unfold failure_description failure_lines
  simp only [String.data_append, b1, b2, b3, b4, b5, b6, joinNL]
  simp [List.append_assoc]

/-- Every generated description line is newline-free and `\r`-clean. -/
theorem failure_lines_good (id : Nat) (r cc cm tc ws : String) (st : Strategy)
    (hr : r = "conflicts" ∨ r = "check")
    (hcc_nl : '\n' ∉ cc.data) (hcc_t : trimChars cc.data = cc.data)
    (hcm_nl : '\n' ∉ cm.data) (hcm_t : trimChars cm.data = cm.data)
    (htc_nl : '\n' ∉ tc.data) (htc_t : trimChars tc.data = tc.data)
    (hws_nl : '\n' ∉ ws.data) (hws_t : trimChars ws.data = ws.data) :
    ∀ l ∈ failure_lines id r cc cm tc ws st, '\n' ∉ l ∧ stripCR l = l := by
  have hrnl : '\n' ∉ r.data := by
    rcases hr with h | h <;> subst h <;> decide
  have hrt : trimChars r.data = r.data := by
    rcases hr with h | h <;> subst h <;> decide
  have hstnl : '\n' ∉ (Strategy.asStr st).data := by
    cases st <;> decide
  have hstt : trimChars (Strategy.asStr st).data = (Strategy.asStr st).data := by
    cases st <;> decide
  intro l hl
  unfold failure_lines at hl
  simp only [List.mem_cons, List.not_mem_nil, or_false] at hl
  rcases hl with h | h | h | h | h | h | h | h <;> subst h
  · constructor
    · intro hmem
      simp only [String.data_append, List.mem_append] at hmem
      rcases hmem with (((hm | hm) | hm) | hm) | hm
      · exact absurd hm (by decide)
      · exact digit_not_newline _ (natStr_digits id _ hm) rfl
      · exact absurd hm (by decide)
      · exact hrnl hm
      · exact absurd hm (by decide)
    · apply stripCR_of_last_not_cr
      simp only [String.data_append]
      rw [List.getLast?_append_of_ne_nil _ (show (")" : String).data ≠ [] by decide)]
      decide
  · exact ⟨by simp, rfl⟩
  · exact trailer_line_good "jjq-candidate: " cc (by decide) (by decide)
      hcc_nl hcc_t
  · exact trailer_line_good "jjq-candidate-commit: " cm (by decide) (by decide)
      hcm_nl hcm_t
  · exact trailer_line_good "jjq-trunk: " tc (by decide) (by decide) htc_nl htc_t
  · exact trailer_line_good "jjq-workspace: " ws (by decide) (by decide)
      hws_nl hws_t
  · exact trailer_line_good "jjq-failure: " r (by decide) (by decide) hrnl hrt
  · exact trailer_line_good "jjq-strategy: " st.asStr (by decide) (by decide)
      hstnl hstt

/-- Under the value conditions, Rust `lines` of the failure description is
exactly the eight-line list. -/
theorem rustLines_failure_description (id : Nat) (r cc cm tc ws : String)
    (st : Strategy)
    (hr : r = "conflicts" ∨ r = "check")
    (hcc_nl : '\n' ∉ cc.data) (hcc_t : trimChars cc.data = cc.data)
    (hcm_nl : '\n' ∉ cm.data) (hcm_t : trimChars cm.data = cm.data)
    (htc_nl : '\n' ∉ tc.data) (htc_t : trimChars tc.data = tc.data)
    (hws_nl : '\n' ∉ ws.data) (hws_t : trimChars ws.data = ws.data) :
    rustLines (failure_description id r cc cm tc ws st).data =
      failure_lines id r cc cm tc ws st := by
  have hgood := failure_lines_good id r cc cm tc ws st hr hcc_nl hcc_t hcm_nl
    hcm_t htc_nl htc_t hws_nl hws_t
  rw [failure_description_data]
  rw [rustLines_joinNL _ hgood (by unfold failure_lines; simp)]
  have hget : (failure_lines id r cc cm tc ws st).getLast? =
      some (("jjq-strategy: " ++ st.asStr).data) := rfl
  rw [if_neg (by
    rw [hget]
    intro hlast
    have h8 : ("jjq-strategy: " ++ st.asStr).data = [] := by injection hlast
    rw [String.data_append] at h8
    have h9 := (List.append_eq_nil.mp h8).1
    exact absurd h9 (by decide))]

/-- The trailer pairs the eight description lines parse to, in order. -/
theorem filterMap_failure_lines (id : Nat) (r cc cm tc ws : String) (st : Strategy)
    (hr : r = "conflicts" ∨ r = "check")
    (hcc_t : trimChars cc.data = cc.data) (hcm_t : trimChars cm.data = cm.data)
    (htc_t : trimChars tc.data = tc.data) (hws_t : trimChars ws.data = ws.data) :
    (failure_lines id r cc cm tc ws st).filterMap trailerOfLine =
      [("candidate", cc), ("candidate-commit", cm), ("trunk", tc),
       ("workspace", ws), ("failure", r), ("strategy", st.asStr)] := by
  have hrt : trimChars r.data = r.data := by
    rcases hr with h | h <;> subst h <;> decide
  have hstt : trimChars (Strategy.asStr st).data = (Strategy.asStr st).data := by
    cases st <;> decide
  have hhead : trailerOfLine
      (("Failed: merge " ++ natStr id ++ " (" ++ r ++ ")").data) = none := by
    have hF : ("Failed: merge " ++ natStr id ++ " (" ++ r ++ ")").data
        = 'F' :: ("ailed: merge ".data ++ (natStr id).data
            ++ " (".data ++ r.data ++ ")".data) := by
      simp only [String.data_append]
      simp
    rw [hF]
    exact trailerOfLine_not_jjq 'F' _ (by decide)
  have h3 := trailerOfLine_trailer "jjq-candidate: " ("candidate".data) cc
    (by decide) (by decide)
  have h4 := trailerOfLine_trailer "jjq-candidate-commit: "
    ("candidate-commit".data) cm (by decide) (by decide)
  have h5 := trailerOfLine_trailer "jjq-trunk: " ("trunk".data) tc
    (by decide) (by decide)
  have h6 := trailerOfLine_trailer "jjq-workspace: " ("workspace".data) ws
    (by decide) (by decide)
  have h7 := trailerOfLine_trailer "jjq-failure: " ("failure".data) r
    (by decide) (by decide)
  have h8 := trailerOfLine_trailer "jjq-strategy: " ("strategy".data) st.asStr
    (by decide) (by decide)
  unfold failure_lines
  simp only [List.filterMap_cons, List.filterMap_nil, hhead, trailerOfLine_nil,
    h3, h4, h5, h6, h7, h8, hcc_t, hcm_t, htc_t, hws_t, hrt, hstt]

/-- What the claim expects each trailer key to map to. -/
def expected_trailer (r cc cm tc ws : String) (st : Strategy) (k : String) :
    Option String :=
  if k = "candidate" then some cc
  else if k = "candidate-commit" then some cm
  else if k = "trunk" then some tc
  else if k = "workspace" then some ws
  else if k = "failure" then some r
  else if k = "strategy" then some st.asStr
  else none

/-- Folding the trailer step over any permutation of the eight lines yields
exactly the six-field map. -/
theorem fold_perm_failure_lines (id : Nat) (r cc cm tc ws : String) (st : Strategy)
    (hr : r = "conflicts" ∨ r = "check")
    (hcc_t : trimChars cc.data = cc.data) (hcm_t : trimChars cm.data = cm.data)
    (htc_t : trimChars tc.data = tc.data) (hws_t : trimChars ws.data = ws.data) :
    ∀ ls : List (List Char), ls.Perm (failure_lines id r cc cm tc ws st) →
    ∀ k : String, lookupKey k (ls.foldl trailerStep []) =
      expected_trailer r cc cm tc ws st k := by
  intro ls hperm k
  rw [lookupKey_foldl]
  have hfm : (ls.filterMap trailerOfLine).Perm
      [("candidate", cc), ("candidate-commit", cm), ("trunk", tc),
       ("workspace", ws), ("failure", r), ("strategy", st.asStr)] := by
    have := hperm.filterMap trailerOfLine
    rwa [filterMap_failure_lines id r cc cm tc ws st hr hcc_t hcm_t htc_t hws_t]
      at this
  have hfilter := hfm.filter (fun p => decide (p.1 = k))
  unfold expected_trailer
  by_cases h1 : k = "candidate"
  · subst h1
    have : ([("candidate", cc), ("candidate-commit", cm), ("trunk", tc),
        ("workspace", ws), ("failure", r), ("strategy", st.asStr)].filter
          (fun p => decide (p.1 = "candidate"))) = [("candidate", cc)] := by
      simp
    rw [this] at hfilter
    rw [List.perm_singleton.mp hfilter]
    simp
  by_cases h2 : k = "candidate-commit"
  · subst h2
    have : ([("candidate", cc), ("candidate-commit", cm), ("trunk", tc),
        ("workspace", ws), ("failure", r), ("strategy", st.asStr)].filter
          (fun p => decide (p.1 = "candidate-commit"))) = [("candidate-commit", cm)] := by
      simp
    rw [this] at hfilter
    rw [List.perm_singleton.mp hfilter]
    simp [h1]
  by_cases h3 : k = "trunk"
  · subst h3
    have : ([("candidate", cc), ("candidate-commit", cm), ("trunk", tc),
        ("workspace", ws), ("failure", r), ("strategy", st.asStr)].filter
          (fun p => decide (p.1 = "trunk"))) = [("trunk", tc)] := by
      simp
    rw [this] at hfilter
    rw [List.perm_singleton.mp hfilter]
    simp [h1, h2]
  by_cases h4 : k = "workspace"
  · subst h4
    have : ([("candidate", cc), ("candidate-commit", cm), ("trunk", tc),
        ("workspace", ws), ("failure", r), ("strategy", st.asStr)].filter
          (fun p => decide (p.1 = "workspace"))) = [("workspace", ws)] := by
      simp
    rw [this] at hfilter
    rw [List.perm_singleton.mp hfilter]
    simp [h1, h2, h3]
  by_cases h5 : k = "failure"
  · subst h5
    have : ([("candidate", cc), ("candidate-commit", cm), ("trunk", tc),
        ("workspace", ws), ("failure", r), ("strategy", st.asStr)].filter
          (fun p => decide (p.1 = "failure"))) = [("failure", r)] := by
      simp
    rw [this] at hfilter
    rw [List.perm_singleton.mp hfilter]
    simp [h1, h2, h3, h4]
  by_cases h6 : k = "strategy"
  · subst h6
    have : ([("candidate", cc), ("candidate-commit", cm), ("trunk", tc),
        ("workspace", ws), ("failure", r), ("strategy", st.asStr)].filter
          (fun p => decide (p.1 = "strategy"))) = [("strategy", st.asStr)] := by
      simp
    rw [this] at hfilter
    rw [List.perm_singleton.mp hfilter]
    simp [h1, h2, h3, h4, h5]
  · have : ([("candidate", cc), ("candidate-commit", cm), ("trunk", tc),
        ("workspace", ws), ("failure", r), ("strategy", st.asStr)].filter
          (fun p => decide (p.1 = k))) = [] := by
      simp [h1, h2, h3, h4, h5, h6]
      exact ⟨fun h => h1 h.symm, fun h => h2 h.symm, fun h => h3 h.symm,
        fun h => h4 h.symm, fun h => h5 h.symm, fun h => h6 h.symm⟩
    rw [this] at hfilter
    rw [hfilter.eq_nil]
    simp [h1, h2, h3, h4, h5, h6, lookupKey]

/-- C4 (amended): for values that contain no newline and are unchanged by
whitespace trimming, parsing the description produced by
`failure_description` with `extract_trailers` recovers exactly the six
trailer fields with the original values, in any order of the description's
lines.  (The original claim, without the trimming condition, fails: the
parser trims each value — see the counterexample.) -/
theorem C4_trailer_roundtrip_trimmed
    (id : Nat) (r cc cm tc ws : String) (st : Strategy)
    (hr : r = "conflicts" ∨ r = "check")
    (hcc_nl : '\n' ∉ cc.data) (hcc_t : trimChars cc.data = cc.data)
    (hcm_nl : '\n' ∉ cm.data) (hcm_t : trimChars cm.data = cm.data)
    (htc_nl : '\n' ∉ tc.data) (htc_t : trimChars tc.data = tc.data)
    (hws_nl : '\n' ∉ ws.data) (hws_t : trimChars ws.data = ws.data) :
    (∀ k, lookupKey k
        (extract_trailers (failure_description id r cc cm tc ws st))
      = expected_trailer r cc cm tc ws st k) ∧
    (∀ ls : List (List Char),
       ls.Perm (rustLines (failure_description id r cc cm tc ws st).data) →
       ∀ k, lookupKey k (extract_trailers ⟨joinNL ls⟩)
          = expected_trailer r cc cm tc ws st k) := by
  have hlines := rustLines_failure_description id r cc cm tc ws st hr hcc_nl
    hcc_t hcm_nl hcm_t htc_nl htc_t hws_nl hws_t
  have hgood := failure_lines_good id r cc cm tc ws st hr hcc_nl hcc_t hcm_nl
    hcm_t htc_nl htc_t hws_nl hws_t
  constructor
  · intro k
    rw [extract_trailers_eq_fold, hlines]
    exact fold_perm_failure_lines id r cc cm tc ws st hr hcc_t hcm_t htc_t
      hws_t _ (List.Perm.refl _) k
  · intro ls hperm k
    rw [hlines] at hperm
    rw [extract_trailers_eq_fold]
    have hd : (⟨joinNL ls⟩ : String).data = joinNL ls := rfl
    rw [hd]
    have hgoodls : ∀ l ∈ ls, '\n' ∉ l ∧ stripCR l = l :=
      fun l hl => hgood l (hperm.mem_iff.mp hl)
    have hne : ls ≠ [] := by
      intro h
      subst h
      have h0 := hperm.symm.eq_nil
      unfold failure_lines at h0
      cases h0
    rw [rustLines_joinNL ls hgoodls hne]
    by_cases hlast : ls.getLast? = some ([] : List Char)
    · rw [if_pos hlast]
      obtain ⟨init, hinit⟩ := List.getLast?_eq_some_iff.mp hlast
      have hdrop : ls.dropLast = init := by
        rw [hinit]
        exact List.dropLast_concat
      rw [hdrop]
      have hfold : init.foldl trailerStep [] = ls.foldl trailerStep [] := by
        rw [hinit, List.foldl_append]
        rfl
      rw [hfold]
      exact fold_perm_failure_lines id r cc cm tc ws st hr hcc_t hcm_t
        htc_t hws_t ls hperm k
    · rw [if_neg hlast]
      exact fold_perm_failure_lines id r cc cm tc ws st hr hcc_t hcm_t
        htc_t hws_t ls hperm k

/-- C4 counterexample: a workspace path padded with spaces contains no
newline and embeds no `jjq-` line, yet the parsed `workspace` field is the
trimmed value, not the original — refuting the round-trip as claimed. -/
theorem C4_trailer_trim_counterexample :
    lookupKey "workspace"
        (extract_trailers
          (failure_description 1 "check" "aaa" "bbb" "ccc" " w " Strategy.merge))
      = some "w" ∧ some ("w" : String) ≠ some (" w " : String) :=
  ⟨by decide, by decide⟩

theorem C4_trailer_roundtrip_trimmed_witness :
    lookupKey "workspace"
        (extract_trailers
          (failure_description 2 "check" "aaa" "bbb" "ccc" "ddd" Strategy.rebase))
      = expected_trailer "check" "aaa" "bbb" "ccc" "ddd" Strategy.rebase
          "workspace" :=
  (C4_trailer_roundtrip_trimmed 2 "check" "aaa" "bbb" "ccc" "ddd"
    Strategy.rebase (Or.inr rfl) (by decide) (by decide) (by decide) (by decide)
    (by decide) (by decide) (by decide) (by decide)).1 "workspace"

end Jjq
